import Mathlib

/-!
Verification of the NVDA "HTML Element Inspector" plugin
(`globalPlugins/htmlElementInspector.py`).

The development shallowly embeds the plugin's pure core: attribute
extraction (`_ia2_attrs`), ancestry walking (`_dom_chain_with_tags`),
URL resolution (`_try_acc_value_url` and friends, `_effective_href`),
canonical-element selection (`_promote_canonical`), attribute inference
(`_augment_attrs_for_readability`, `_infer_form_attrs`,
`_infer_expanded_for_combobox`), key ordering (`_ordered_params`), block
rendering (`_format_tag_block`) and the plain report assembly
(`_build_report` with `advanced=False`, together with `_is_web_context`
and `_get_candidate_object`).

Python strings are modelled as Lean `String`s, with `.strip()`,
`.lower()`, `.upper()`, `.startswith()`, the `in` substring test and
`";".split`-style operations re-implemented over the character list so
that everything reduces inside the kernel.  Python dicts of attributes
are association lists (`AttrMap`) with dict semantics: an assignment to
an existing key updates it in place, a fresh key is appended, so the key
list of a map built by assignment never has duplicates.  Host
(NVDA/IAccessible2) objects are an inductive `Node` carrying exactly the
fields the plugin reads; every host accessor that can fail is an
`Option` field whose `none` stands for "absent or raised, swallowed by
the caller".  Python's `is`-identity comparisons between host objects
are modelled by structural equality (`nodeBeq`), which agrees with
identity on the tree-shaped object graphs expressible here.
-/

/-! ## Python string primitives over character lists -/

set_option maxRecDepth 400000

def isPyWs (c : Char) : Bool := c.isWhitespace

/-- `str.lower()` (ASCII, as exercised by the plugin's comparisons). -/
def pyLower (s : String) : String := ⟨s.data.map Char.toLower⟩

/-- `str.upper()`. -/
def pyUpper (s : String) : String := ⟨s.data.map Char.toUpper⟩

def dropLeadingWs (l : List Char) : List Char := l.dropWhile isPyWs

def dropTrailingWs (l : List Char) : List Char := (l.reverse.dropWhile isPyWs).reverse

/-- `str.strip()`. -/
def pyStrip (s : String) : String := ⟨dropTrailingWs (dropLeadingWs s.data)⟩

/-- `str.rstrip()`. -/
def pyRstrip (s : String) : String := ⟨dropTrailingWs s.data⟩

/-- `str.startswith(pre)`. -/
def pyStartsWith (s pre : String) : Bool := pre.data.isPrefixOf s.data

def containsSub (hay nd : List Char) : Bool :=
  nd.isPrefixOf hay ||
    match hay with
    | [] => false
    | _ :: t => containsSub t nd

/-- Python's `nd in hay` substring test. -/
def pyIn (nd hay : String) : Bool := containsSub hay.data nd.data

/-- `_safe`: `None` becomes `""`, a string is passed through. -/
def pyStr : Option String → String
  | Option.none => ""
  | some s => s

/-- Python truthiness of an optional string (`None` and `""` are falsy). -/
def truthy : Option String → Bool
  | Option.none => false
  | some s => s ≠ ""

/-- `a or b or ""` over optional strings: first truthy value, else `""`. -/
def firstTruthyStr : List (Option String) → String
  | [] => ""
  | v :: rest => if truthy v then pyStr v else firstTruthyStr rest

/-- `sep.join(parts)`. -/
def pyJoin (sep : String) : List String → String
  | [] => ""
  | [s] => s
  | s :: rest => s ++ sep ++ pyJoin sep rest

/-- `s.split(c)` on a single-character separator. -/
def splitOnCharAux (c : Char) : List Char → List Char → List (List Char)
  | [], cur => [cur.reverse]
  | ch :: rest, cur =>
    if ch = c then cur.reverse :: splitOnCharAux c rest []
    else splitOnCharAux c rest (ch :: cur)

def pySplitChar (c : Char) (s : String) : List String :=
  (splitOnCharAux c s.data []).map (fun cs => ⟨cs⟩)

/-- `s.split(":", 1)`: `none` when no colon occurs (`":" not in s`). -/
def splitFirstColon : List Char → Option (List Char × List Char)
  | [] => Option.none
  | ch :: rest =>
    if ch = ':' then some ([], rest)
    else
      match splitFirstColon rest with
      | some (a, b) => some (ch :: a, b)
      | Option.none => Option.none

/-! ## Attribute mappings with Python dict semantics -/

abbrev AttrMap := List (String × String)

/-- `d.get(k)` (`None` when absent). -/
def aget : AttrMap → String → Option String
  | [], _ => Option.none
  | (k, v) :: rest, key => if k = key then some v else aget rest key

/-- `d.get(k, dflt)`. -/
def agetD (m : AttrMap) (key dflt : String) : String := (aget m key).getD dflt

/-- `k in d`. -/
def acontains (m : AttrMap) (key : String) : Bool := (aget m key).isSome

/-- `d[k] = v`: update in place when the key exists, else append. -/
def aset : AttrMap → String → String → AttrMap
  | [], key, v => [(key, v)]
  | (k, w) :: rest, key, v =>
    if k = key then (key, v) :: rest else (k, w) :: aset rest key v

/-- `d.pop(k, None)`. -/
def aerase (m : AttrMap) (key : String) : AttrMap :=
  m.filter (fun p => p.1 ≠ key)

/-- `list(d.keys())`. -/
def keysOf (m : AttrMap) : List String := m.map Prod.fst

/-! ## Host objects (NVDA / IAccessible2), as read by the plugin -/

/-- The raw `IA2Attributes` source: a structured dict, a `;`-delimited
string blob, or absent (`None` / raising accessor). -/
inductive IA2Source where
  | dict (entries : List (String × String))
  | blob (s : String)
  | absent
deriving DecidableEq

/-- NVDA `controlTypes.State` constants used by the plugin. -/
inductive StateC where
  | REQUIRED | FOCUSABLE | FOCUSED | SELECTED | EXPANDED | COLLAPSED
  | CHECKED | PRESSED | ON | OTHER
deriving DecidableEq

/-- One member of `obj.states`: a typed constant plus the display string
used by `_has_state_name`'s `str(s)` test. -/
structure StateV where
  const : StateC
  nm : String
deriving DecidableEq

/-- NVDA `controlTypes.Role` constants used by the plugin. -/
inductive RoleC where
  | BUTTON | TOGGLEBUTTON | OTHER
deriving DecidableEq

/-- Tree-interceptor surface read by `_is_web_context` and
`_try_tree_interceptor_url`: `isBrowseMode` is the
`BrowseModeTreeInterceptor` isinstance test, `quickNavPassThrough` the
`passThrough`/`script_quickNav_nextHeading` hasattr fallback, and the
four URL fields are `documentURL`/`URL`/`url`/`documentConstantIdentifier`. -/
structure TI where
  isBrowseMode : Bool
  quickNavPassThrough : Bool
  documentURL : Option String
  urlUpper : Option String
  urlLower : Option String
  docConstId : Option String
deriving DecidableEq

/-- App-module URL helpers tried by `_try_appmodule_url`; a `none` field
stands for a missing or non-callable accessor. -/
structure AM where
  getBrowserURL : Option String
  getCurrentURL : Option String
  getCurrentDocumentURL : Option String
  getDocumentURL : Option String
deriving DecidableEq

/-- An accessibility node with exactly the fields the plugin reads.
`accVal` is the MSAA `accValue(0)` result (`none`: no
`IAccessibleObject` or the call raised). -/
inductive Node where
  | mk (ia2 : IA2Source) (nm desc val accVal : Option String)
      (states : List StateV) (roleC : Option RoleC)
      (ti : Option TI) (am : Option AM)
      (colSpanV rowSpanV : Option String)
      (parent firstChild nextSib : Option Node)

def Node.ia2 : Node → IA2Source
  | .mk i _ _ _ _ _ _ _ _ _ _ _ _ _ => i

def Node.nm : Node → Option String
  | .mk _ n _ _ _ _ _ _ _ _ _ _ _ _ => n

def Node.desc : Node → Option String
  | .mk _ _ d _ _ _ _ _ _ _ _ _ _ _ => d

def Node.val : Node → Option String
  | .mk _ _ _ v _ _ _ _ _ _ _ _ _ _ => v

def Node.accVal : Node → Option String
  | .mk _ _ _ _ a _ _ _ _ _ _ _ _ _ => a

def Node.states : Node → List StateV
  | .mk _ _ _ _ _ s _ _ _ _ _ _ _ _ => s

def Node.roleC : Node → Option RoleC
  | .mk _ _ _ _ _ _ r _ _ _ _ _ _ _ => r

def Node.ti : Node → Option TI
  | .mk _ _ _ _ _ _ _ t _ _ _ _ _ _ => t

def Node.am : Node → Option AM
  | .mk _ _ _ _ _ _ _ _ a _ _ _ _ _ => a

def Node.colSpanV : Node → Option String
  | .mk _ _ _ _ _ _ _ _ _ c _ _ _ _ => c

def Node.rowSpanV : Node → Option String
  | .mk _ _ _ _ _ _ _ _ _ _ r _ _ _ => r

def Node.parent : Node → Option Node
  | .mk _ _ _ _ _ _ _ _ _ _ _ p _ _ => p

def Node.firstChild : Node → Option Node
  | .mk _ _ _ _ _ _ _ _ _ _ _ _ f _ => f

def Node.nextSib : Node → Option Node
  | .mk _ _ _ _ _ _ _ _ _ _ _ _ _ x => x

mutual

/-- Structural equality on nodes, modelling Python `is` identity (on the
tree-shaped object graphs expressible here the two agree). -/
def nodeBeq : Node → Node → Bool
  | .mk i1 n1 d1 v1 a1 s1 r1 t1 m1 c1 w1 p1 f1 x1,
    .mk i2 n2 d2 v2 a2 s2 r2 t2 m2 c2 w2 p2 f2 x2 =>
    i1 == i2 && n1 == n2 && d1 == d2 && v1 == v2 && a1 == a2 && s1 == s2 &&
    r1 == r2 && t1 == t2 && m1 == m2 && c1 == c2 && w1 == w2 &&
    onodeBeq p1 p2 && onodeBeq f1 f2 && onodeBeq x1 x2

def onodeBeq : Option Node → Option Node → Bool
  | Option.none, Option.none => true
  | some a, some b => nodeBeq a b
  | _, _ => false

end

/-- `_state_in(obj, st)`. -/
def stateIn (n : Node) (c : StateC) : Bool :=
  n.states.any (fun s => s.const == c)

/-- `_has_state_name(obj, needle)`: case-insensitive substring test on
each state's display string. -/
def hasStateName (n : Node) (needle : String) : Bool :=
  n.states.any (fun s => pyIn (pyLower needle) (pyLower s.nm))

/-! ## `_ia2_attrs`: attribute extraction -/

/-- The structured path's key aliasing (`ksl` is the lowercase used in
the `in (...)` membership tests; `ks` the already-stripped key). -/
def aliasKeyStruct (ks ksl : String) : String :=
  if ksl = "aria-describedby" ∨ ksl = "describedby" then "describedby"
  else if ksl = "aria-checked" ∨ ksl = "checked" ∨ ksl = "ariachecked" then "checked"
  else ks

/-- The structured-dict loop of `_ia2_attrs`.  `lastKsl` carries the
`ksl` local across iterations: the Python only assigns `ksl` when the
stripped key is non-empty, so an empty key reuses the previous
iteration's value, and on the very first iteration the resulting
`NameError` is caught by the surrounding `except`, keeping the entries
accumulated so far. -/
def structFold : List (String × String) → AttrMap → Option String → AttrMap
  | [], out, _ => out
  | (k, v) :: rest, out, lastKsl =>
    let ks := pyStrip k
    let ksl? := if ks ≠ "" then some (pyLower ks) else lastKsl
    match ksl? with
    | Option.none => out
    | some ksl => structFold rest (aset out (aliasKeyStruct ks ksl) (pyStrip v)) (some ksl)

/-- One `k:v` entry of the string-blob path (note: unlike the structured
path, only the described-by aliases are collapsed here). -/
def blobEntry (out : AttrMap) (p : String) : AttrMap :=
  match splitFirstColon p.data with
  | Option.none => out
  | some (kcs, vcs) =>
    let ks := pyStrip ⟨kcs⟩
    let ksl := pyLower ks
    let ks2 := if ksl = "aria-describedby" ∨ ksl = "describedby" then "describedby" else ks
    aset out ks2 (pyStrip ⟨vcs⟩)

def blobFold : List String → AttrMap → AttrMap
  | [], out => out
  | p :: rest, out => blobFold rest (blobEntry out p)

/-- `[p.strip() for p in s.split(";") if p.strip()]`. -/
def blobParts (s : String) : List String :=
  ((pySplitChar ';' s).map pyStrip).filter (fun p => p ≠ "")

/-- The `formControlName -> formcontrolname` loop over a key snapshot. -/
def fcnFold : List String → AttrMap → AttrMap
  | [], out => out
  | k :: rest, out =>
    if pyLower k = "formcontrolname" ∧ k ≠ "formcontrolname" then
      fcnFold rest (aset (aerase out k) "formcontrolname" (agetD out k ""))
    else fcnFold rest out

/-- `orientation` from `aria-orientation`, only when absent. -/
def enrichOrientation (m : AttrMap) : AttrMap :=
  if ¬ acontains m "orientation" ∧ acontains m "aria-orientation"
  then aset m "orientation" (pyStrip (agetD m "aria-orientation" "")) else m

/-- `valuetext` from `aria-valuetext`, only when absent. -/
def enrichValuetext (m : AttrMap) : AttrMap :=
  if ¬ acontains m "valuetext" ∧ acontains m "aria-valuetext"
  then aset m "valuetext" (pyStrip (agetD m "aria-valuetext" "")) else m

/-- The `formControlName -> formcontrolname` loop, over a snapshot of
the current keys. -/
def enrichFcn (m : AttrMap) : AttrMap := fcnFold (keysOf m) m

/-- `value` inferred from `aria-valuenow`, then `aria-valuetext`, then
`obj.value`, only when absent; first non-empty wins. -/
def enrichValue (objValue : Option String) (m : AttrMap) : AttrMap :=
  if ¬ acontains m "value" then
    if pyStrip (agetD m "aria-valuenow" "") ≠ "" then
      aset m "value" (pyStrip (agetD m "aria-valuenow" ""))
    else if pyStrip (agetD m "aria-valuetext" "") ≠ "" then
      aset m "value" (pyStrip (agetD m "aria-valuetext" ""))
    else
      let vs := pyStrip (pyStr objValue)
      if vs ≠ "" then aset m "value" vs else m
  else m

/-- For `<a>` without `href`: promote an absolute HTTP(S) `value` to
`href` and drop the `value` entry. -/
def enrichHrefA (m : AttrMap) : AttrMap :=
  if pyLower (pyStrip (agetD m "tag" "")) = "a" then
    let href := pyStrip (agetD m "href" "")
    let v := pyStrip (agetD m "value" "")
    if href = "" ∧ (pyStartsWith v "http://" ∨ pyStartsWith v "https://") then
      aerase (aset m "href" v) "value"
    else m
  else m

/-- The enrichment block of `_ia2_attrs` (ARIA key normalization, value
inference from `aria-valuenow`/`aria-valuetext`/`obj.value`, and the
`<a>`-without-href URL promotion).  `objValue` is `obj.value`. -/
def enrich (objValue : Option String) (out0 : AttrMap) : AttrMap :=
  enrichHrefA (enrichValue objValue (enrichFcn (enrichValuetext (enrichOrientation out0))))

/-- `_ia2_attrs(obj)`. -/
def ia2attrs (n : Node) : AttrMap :=
  let base :=
    match n.ia2 with
    | IA2Source.dict es => structFold es [] Option.none
    | IA2Source.blob s => if pyStrip s ≠ "" then blobFold (blobParts s) [] else []
    | IA2Source.absent => []
  enrich n.val base

/-- `_tag(obj)`. -/
def tagOf (n : Node) : String := pyLower (pyStrip (agetD (ia2attrs n) "tag" ""))

/-! ## `_dom_chain_with_tags`: the ancestry walker -/

/-- `_dom_chain_with_tags(obj, max_depth)`: each loop iteration consumes
one unit of depth whether or not the current object carries a tag. -/
def domChain : Option Node → Nat → List Node
  | _, 0 => []
  | Option.none, _ => []
  | some cur, Nat.succ fuel =>
    let attrs := ia2attrs cur
    if agetD attrs "tag" "" ≠ "" then
      if pyLower (pyStrip (agetD attrs "tag" "")) = "#document" then [cur]
      else cur :: domChain cur.parent fuel
    else domChain cur.parent fuel

/-- `_find_nearest_tag(chain, tag_name)`. -/
def findNearestTag (chain : List Node) (tagName : String) : Option Node :=
  chain.find? (fun o => tagOf o = pyLower tagName)

/-- A node with only an `IA2Attributes` source, everything else absent. -/
def bareNode (src : IA2Source) : Node :=
  Node.mk src Option.none Option.none Option.none Option.none [] Option.none
    Option.none Option.none Option.none Option.none Option.none Option.none
    Option.none

/-- A bare node with a parent link. -/
def bareNodeP (src : IA2Source) (p : Node) : Node :=
  Node.mk src Option.none Option.none Option.none Option.none [] Option.none
    Option.none Option.none Option.none Option.none (some p) Option.none
    Option.none

def wC3doc : Node := bareNode (IA2Source.dict [("tag", "#document")])

def wC3child : Node := bareNodeP (IA2Source.dict [("tag", "span")]) wC3doc

/-! ## C4 infrastructure: alias normalization -/

/-- The structured-path alias normalization of `_ia2_attrs`, as a
standalone pass over a mapping. -/
def aliasNormalize (m : AttrMap) : AttrMap := structFold m [] Option.none

/-- The per-key renaming applied by the structured path to a key whose
stripped form is non-empty. -/
def keyNorm (k : String) : String := aliasKeyStruct (pyStrip k) (pyLower (pyStrip k))

/-- The structured loop without the stale-`ksl` state; equals
`structFold` whenever every key strips to a non-empty string. -/
def normFold : List (String × String) → AttrMap → AttrMap
  | [], acc => acc
  | p :: rest, acc => normFold rest (aset acc (keyNorm p.1) (pyStrip p.2))

/-- Pairs fixed by the normalization pass. -/
def GoodPair (p : String × String) : Prop :=
  keyNorm p.1 = p.1 ∧ pyStrip p.2 = p.2 ∧ pyStrip p.1 ≠ ""

def cC4blobNode : Node := bareNode (IA2Source.blob "aria-checked:true")

def wC4dictNode : Node := bareNode (IA2Source.dict [("ARIA-CHECKED", "1"), ("aria-describedby", "d")])

/-! ## `_ordered_params` and `_format_tag_block`: the report formatter -/

/-- The fixed preference list of `_ordered_params`. -/
def preferredKeys : List String :=
  ["tag", "id", "class",
   "role", "xml-roles",
   "orientation",
   "MSAA Role",
   "IA2 Role",
   "href", "src",
   "type", "text-input-type",
   "name", "html-input-name",
   "accessible-name", "accessible-name-from",
   "formcontrolname",
   "value", "valuetext",
   "required", "multiline",
   "contenteditable", "tabindex",
   "maxlength", "autocomplete",
   "haspopup", "expanded",
   "selected",
   "checkable", "checked",
   "pressed",
   "label", "title",
   "describedby", "description",
   "description-from", "labelledby",
   "name-from", "explicit-name", "explicit-name-from",
   "level", "posinset", "setsize",
   "colspan", "rowspan", "table-cell-index",
   "readonly", "fsFormField",
   "display", "layout-guess", "text-align", "text-model"]

/-- Lexicographic code-point comparison, Python's `<=` on strings. -/
def lexLe : List Char → List Char → Bool
  | [], _ => true
  | _ :: _, [] => false
  | a :: as, b :: bs =>
    if a.toNat < b.toNat then true
    else if b.toNat < a.toNat then false
    else lexLe as bs

/-- The sort key of `sorted(..., key=lambda s: s.lower())`. -/
def keyLe (a b : String) : Prop := lexLe (pyLower a).data (pyLower b).data = true

instance : DecidableRel keyLe := fun a b =>
  inferInstanceAs (Decidable (lexLe (pyLower a).data (pyLower b).data = true))

/-- Python's `sorted` is a stable sort; insertion sort is stable with
the same tie behavior. -/
def pySortedKeys (l : List String) : List String := List.insertionSort keyLe l

/-- The second loop of `_ordered_params`: emit sorted keys not yet in
`seen`, growing `seen` as keys are emitted. -/
def dedupAppend : List String → List String → List String
  | [], _ => []
  | k :: rest, seen =>
    if k ∈ seen then dedupAppend rest seen else k :: dedupAppend rest (k :: seen)

/-- `_ordered_params(tag_name, attrs)` (the `tag_name` argument is
unused by the Python body as well). -/
def orderedParams (attrs : AttrMap) : List String :=
  let first := preferredKeys.filter (fun k => acontains attrs k)
  first ++ dedupAppend (pySortedKeys (keysOf attrs)) first

/-- The non-empty `(key, value)` pairs of `_format_tag_block`, in
rendering order. -/
def formatPairs (keys : List String) (attrs : AttrMap) : List (String × String) :=
  keys.filterMap (fun k =>
    let v := pyStrip (agetD attrs k "")
    if v = "" then Option.none else some (k, v))

/-- The lines of `_format_tag_block(tag_name, attrs)`. -/
def formatTagBlockLines (tagName : String) (attrs : AttrMap) : List String :=
  let pairs := formatPairs (orderedParams attrs) attrs
  "" :: ("Tag " ++ pyUpper tagName ++ " has " ++ toString pairs.length ++ " parameters:")
    :: (pairs.map (fun p => p.1 ++ "=" ++ p.2) ++ [""])

/-- `_format_tag_block(tag_name, attrs)`. -/
def formatTagBlock (tagName : String) (attrs : AttrMap) : String :=
  pyJoin "\n" (formatTagBlockLines tagName attrs)

/-! ## URL resolution -/

def urlShaped (s : String) : Bool :=
  pyStartsWith s "http://" || pyStartsWith s "https://"

/-- The shared shape of each fallback accessor loop: strip the value
and accept it only when it starts with `http://` or `https://`. -/
def firstUrl : List (Option String) → String
  | [] => ""
  | v :: rest =>
    let s := pyStrip (pyStr v)
    if urlShaped s then s else firstUrl rest

/-- `_try_acc_value_url(obj)`. -/
def tryAccValueUrl (n : Node) : String :=
  match n.accVal with
  | Option.none => ""
  | some v =>
    let s := pyStrip v
    if urlShaped s then s else ""

/-- `_try_tree_interceptor_url(obj)`. -/
def tryTreeInterceptorUrl (n : Node) : String :=
  match n.ti with
  | Option.none => ""
  | some t => firstUrl [t.documentURL, t.urlUpper, t.urlLower, t.docConstId]

/-- `_try_appmodule_url(obj)`. -/
def tryAppmoduleUrl (n : Node) : String :=
  match n.am with
  | Option.none => ""
  | some a => firstUrl [a.getBrowserURL, a.getCurrentURL, a.getCurrentDocumentURL,
      a.getDocumentURL]

/-- The host context visible to `api.*` calls: focus object, navigator
object, and the browse-mode caret object (the `NVDAObjectAtStart` of
the caret text-info, `none` when unavailable). -/
structure Env where
  focus : Option Node
  nav : Option Node
  caretObj : Option Node

/-- `_document_url(base_obj, chain)` (reads `api.getFocusObject()`). -/
def documentUrl (e : Env) (baseObj : Node) (chain : List Node) : String :=
  let d1 :=
    match findNearestTag chain "#document" with
    | some doc =>
      let href := pyStrip (agetD (ia2attrs doc) "href" "")
      if href ≠ "" then href else tryAccValueUrl doc
    | Option.none => ""
  if d1 ≠ "" then d1
  else if tryTreeInterceptorUrl baseObj ≠ "" then tryTreeInterceptorUrl baseObj
  else if tryAppmoduleUrl baseObj ≠ "" then tryAppmoduleUrl baseObj
  else if tryAccValueUrl baseObj ≠ "" then tryAccValueUrl baseObj
  else
    match e.focus with
    | Option.none => ""
    | some f =>
      if tryTreeInterceptorUrl f ≠ "" then tryTreeInterceptorUrl f
      else if tryAppmoduleUrl f ≠ "" then tryAppmoduleUrl f
      else if tryAccValueUrl f ≠ "" then tryAccValueUrl f
      else ""

/-- `_effective_href(obj, chain, base_obj)`. -/
def effectiveHref (e : Env) (n : Node) (chain : List Node) (baseObj : Node) : String :=
  let t := tagOf n
  if t = "#document" then
    let href := pyStrip (agetD (ia2attrs n) "href" "")
    if href ≠ "" then href else documentUrl e baseObj chain
  else
    let href := pyStrip (agetD (ia2attrs n) "href" "")
    if href ≠ "" then href
    else if t = "a" then tryAccValueUrl n
    else if t = "img" ∨ t = "svg" then
      match findNearestTag chain "a" with
      | some link =>
        let h2 := pyStrip (agetD (ia2attrs link) "href" "")
        if h2 ≠ "" then h2
        else
          let v2 := tryAccValueUrl link
          if v2 ≠ "" then v2 else ""
      | Option.none => ""
    else ""

def wC10node : Node :=
  Node.mk (IA2Source.dict [("tag", "a"), ("href", "not-a-url")]) Option.none
    Option.none Option.none (some "ftp://x") [] Option.none Option.none
    Option.none Option.none Option.none Option.none Option.none Option.none

/-! ## `_augment_attrs_for_readability` and its helper passes -/

/-- `_is_control_tag(tagLower)`. -/
def isControlTag (t : String) : Bool :=
  if t = "" then false
  else t = "input" ∨ t = "textarea" ∨ t = "select" ∨ t = "button" ∨
    t = "option" ∨ t = "meter" ∨ t = "progress"

/-- Raw `IA2Attributes.get(k)` on the unprocessed dict (used by the
name-provenance step, which re-reads `obj.IA2Attributes` directly).
For a string-valued source the Python `.get` call would raise an
uncaught `AttributeError` inside `_augment_attrs_for_readability`; the
theorems about the inference engine therefore assume a structured or
absent source. -/
def rawGet (n : Node) (k : String) : Option String :=
  match n.ia2 with
  | IA2Source.dict es => (es.find? (fun p => p.1 = k)).map Prod.snd
  | _ => Option.none

/-- Ensure `tag` is present (`t` is `_tag(obj)` computed at entry). -/
def stepTag (t : String) (m : AttrMap) : AttrMap :=
  if t ≠ "" ∧ ¬ acontains m "tag" then aset m "tag" t else m

/-- `accessible-name` from `obj.name`, only when absent. -/
def stepAccName (n : Node) (m : AttrMap) : AttrMap :=
  if ¬ acontains m "accessible-name"
  then aset m "accessible-name" (pyStrip (pyStr n.nm)) else m

/-- The `computedFrom` classification of the accessible-name source. -/
def computedFromOf (n : Node) (m : AttrMap) : String :=
  let nf := firstTruthyStr [rawGet n "name-from", aget m "name-from"]
  let cf := pyStrip nf
  if cf = "related-element" then
    if truthy (rawGet n "labelledby") ∨ truthy (aget m "labelledby") ∨
        truthy (rawGet n "aria-labelledby") ∨ truthy (aget m "aria-labelledby")
    then "aria-labelledby" else cf
  else if cf = "attribute" then
    if truthy (rawGet n "aria-label") ∨ truthy (aget m "aria-label") ∨
        truthy (rawGet n "aria_label") ∨ truthy (aget m "aria_label")
    then "aria-label" else "attribute"
  else if cf = "contents" ∨ cf = "content" then "content"
  else if cf = "label" ∨ cf = "label-for" ∨ cf = "labelfor" then "label"
  else cf

/-- Write `accessible-name-from`, only over an empty or generic value. -/
def stepNameFrom (cf : String) (m : AttrMap) : AttrMap :=
  if cf ≠ "" ∧ (¬ truthy (aget m "accessible-name-from") ∨
      (aget m "accessible-name-from" = some "attribute" ∧ pyStartsWith cf "aria-"))
  then aset m "accessible-name-from" cf else m

/-- Record `explicit-name-from` when `explicit-name` is truthy. -/
def stepExplicitName (cf : String) (m : AttrMap) : AttrMap :=
  let exp := pyLower (pyStrip (agetD m "explicit-name" ""))
  if exp = "true" ∨ exp = "1" ∨ exp = "yes" ∨ exp = "on" then
    if ¬ acontains m "explicit-name-from" ∨ pyStrip (agetD m "explicit-name-from" "") = ""
    then aset m "explicit-name-from" cf else m
  else m

/-- Expanded / collapsed from NVDA states (unconditional rewrite). -/
def stepExpanded (n : Node) (m : AttrMap) : AttrMap :=
  if stateIn n StateC.COLLAPSED ∨ hasStateName n "collapsed" then
    aset m "expanded" "false"
  else if stateIn n StateC.EXPANDED ∨ hasStateName n "expanded" then
    aset m "expanded" "true"
  else m

/-- Selected from NVDA states, only when absent. -/
def stepSelected (n : Node) (m : AttrMap) : AttrMap :=
  if ¬ acontains m "selected" then
    if stateIn n StateC.SELECTED ∨ hasStateName n "selected" then
      aset m "selected" "true"
    else
      let roleL := pyLower (agetD m "role" "")
      let xmlL := pyLower (agetD m "xml-roles" "")
      if roleL = "tab" ∨ roleL = "option" ∨ roleL = "treeitem" ∨
          xmlL = "tab" ∨ xmlL = "option" ∨ xmlL = "treeitem"
      then aset m "selected" "false" else m
  else m

/-- Checked inference (only when `checkable` present, `checked` absent),
with the role-`switch` preferences. -/
def stepChecked (n : Node) (m : AttrMap) : AttrMap :=
  if acontains m "checkable" ∧ ¬ acontains m "checked" then
    let roleL := pyLower (agetD m "role" "")
    let xmlL := pyLower (agetD m "xml-roles" "")
    let isSwitch := roleL = "switch" ∨ xmlL = "switch"
    let st1 : Bool :=
      if isSwitch then (if hasStateName n "on" then true else false) else false
    let st2 : Bool :=
      if isSwitch ∧ st1 = false then
        (if stateIn n StateC.ON then true else st1)
      else st1
    let st3 : Bool :=
      if st2 = false then stateIn n StateC.CHECKED || hasStateName n "checked" else st2
    let st4 : Bool :=
      if st3 = false ∧ isSwitch then
        stateIn n StateC.PRESSED || hasStateName n "pressed"
      else st3
    aset m "checked" (if st4 then "true" else "false")
  else m

/-- The parsed `aria-pressed` hint (`pressedFromAria`). -/
def ariaPressedHint (m : AttrMap) : Option Bool :=
  let ap := pyLower (pyStrip (agetD m "aria-pressed" ""))
  if ap = "" then Option.none
  else if ap = "0" ∨ ap = "false" ∨ ap = "no" then some false
  else if ap = "1" ∨ ap = "true" ∨ ap = "yes" then some true
  else Option.none

/-- Drop a non-empty `aria-pressed` from the output. -/
def pressedHintErase (m : AttrMap) : AttrMap :=
  if pyLower (pyStrip (agetD m "aria-pressed" "")) = "" then m
  else aerase m "aria-pressed"

/-- Toggle inference: only for recognized toggles with an allowed tag. -/
def pressedToggle (n : Node) (pfa : Option Bool) (m : AttrMap) : AttrMap :=
  if acontains m "pressed" then m
  else
    let tagL := pyLower (agetD m "tag" "")
    let roleL := pyLower (agetD m "role" "")
    let xmlL := pyLower (agetD m "xml-roles" "")
    let isToggle := roleL = "togglebutton" ∨ xmlL = "togglebutton" ∨
      n.roleC = some RoleC.TOGGLEBUTTON
    if isToggle ∧ (tagL = "button" ∨ tagL = "a" ∨ tagL = "div" ∨ tagL = "span" ∨ tagL = "") then
      if stateIn n StateC.PRESSED ∨ stateIn n StateC.CHECKED ∨
          hasStateName n "pressed" ∨ hasStateName n "checked" then
        aset m "pressed" "true"
      else
        match pfa with
        | some b => aset m "pressed" (if b then "true" else "false")
        | Option.none => aset m "pressed" "false"
    else m

/-- Tabs: selected tabs report `pressed=true`. -/
def pressedTab (m : AttrMap) : AttrMap :=
  if acontains m "pressed" then m
  else
    let roleL := pyLower (agetD m "role" "")
    let xmlL := pyLower (agetD m "xml-roles" "")
    if (roleL = "tab" ∨ xmlL = "tab") ∧ aget m "selected" = some "true" then
      aset m "pressed" "true"
    else m

/-- Keep the aria hint when toggle inference did not set `pressed`. -/
def pressedFallback (pfa : Option Bool) (m : AttrMap) : AttrMap :=
  if acontains m "pressed" then m
  else
    match pfa with
    | some b => aset m "pressed" (if b then "true" else "false")
    | Option.none => m

/-- Normalize a present `pressed` value's textual variants. -/
def pressedNorm (m : AttrMap) : AttrMap :=
  if acontains m "pressed" then
    let pv := pyLower (pyStrip (agetD m "pressed" ""))
    if pv = "0" ∨ pv = "false" ∨ pv = "no" then aset m "pressed" "false"
    else if pv = "1" ∨ pv = "true" ∨ pv = "yes" then aset m "pressed" "true"
    else m
  else m

/-- The pressed/toggle block: read and remove a non-empty `aria-pressed`
hint, infer `pressed` only for recognized toggles, the `tab`+selected
rule, the hint fallback, and the final textual normalization. -/
def stepPressed (n : Node) (m : AttrMap) : AttrMap :=
  let pfa := ariaPressedHint m
  pressedNorm (pressedFallback pfa (pressedTab (pressedToggle n pfa (pressedHintErase m))))

/-- `_safe(v) if v else "1"` for the span properties. -/
def spanDefault : Option String → String
  | some s => if s ≠ "" then s else "1"
  | Option.none => "1"

def spanCol (n : Node) (m : AttrMap) : AttrMap :=
  if ¬ acontains m "colspan" then aset m "colspan" (spanDefault n.colSpanV) else m

def spanRow (n : Node) (m : AttrMap) : AttrMap :=
  if ¬ acontains m "rowspan" then aset m "rowspan" (spanDefault n.rowSpanV) else m

/-- Table-cell span defaults for `td`/`th` (`t` is `_tag(obj)`). -/
def stepSpans (n : Node) (t : String) (m : AttrMap) : AttrMap :=
  if t = "td" ∨ t = "th" then spanRow n (spanCol n m) else m

/-- `layout-guess` default for tables. -/
def stepLayout (t : String) (m : AttrMap) : AttrMap :=
  if t = "table" ∧ ¬ acontains m "layout-guess" then aset m "layout-guess" "false" else m

/-- Conditional `tabindex` exposure for role `tab`. -/
def stepTabindex (n : Node) (m : AttrMap) : AttrMap :=
  if ¬ acontains m "tabindex" then
    let tagL := pyLower (if truthy (aget m "tag") then pyStr (aget m "tag") else tagOf n)
    if tagL ≠ "#document" ∧ tagL ≠ "body" ∧ tagL ≠ "html" then
      let roleL := pyLower (agetD m "role" "")
      let xmlL := pyLower (agetD m "xml-roles" "")
      if roleL = "tab" ∨ xmlL = "tab" then
        if (stateIn n StateC.FOCUSABLE ∨ hasStateName n "focusable") ∨
            (stateIn n StateC.FOCUSED ∨ hasStateName n "focused")
        then aset m "tabindex" "0" else m
      else m
    else m
  else m

/-! ### `_infer_form_attrs` -/

/-- Normalize a present `checked` value to `true`/`false`. -/
def formChecked (m : AttrMap) : AttrMap :=
  if acontains m "checked" then
    let v := pyLower (pyStrip (agetD m "checked" ""))
    if v = "1" ∨ v = "true" ∨ v = "yes" ∨ v = "on" ∨ v = "mixed" then
      aset m "checked" "true"
    else if v = "0" ∨ v = "false" ∨ v = "no" ∨ v = "off" then
      aset m "checked" "false"
    else m
  else m

/-- Tooltip descriptions render as `title`, not `label`. -/
def formTooltip (m : AttrMap) : AttrMap :=
  let src := pyLower (pyStrip (agetD m "description-from" ""))
  if src = "tooltip" ∧ acontains m "label" ∧ ¬ acontains m "title" then
    aset (aerase m "label") "title" (agetD m "label" "")
  else m

/-- The `t` local of `_infer_form_attrs`:
`(out.get("tag") or _tag(obj)).lower()`. -/
def formT (n : Node) (m : AttrMap) : String :=
  pyLower (if truthy (aget m "tag") then pyStr (aget m "tag") else tagOf n)

/-- Never mark document/body/html as form fields. -/
def formFsStrip (t : String) (m : AttrMap) : AttrMap :=
  if t = "#document" ∨ t = "body" ∨ t = "html" then aerase m "fsFormField" else m

/-- Infer the `fsFormField` marker for interactive tags/roles. -/
def formFsInfer (t : String) (m : AttrMap) : AttrMap :=
  if ¬ acontains m "fsFormField" then
    let xmlr := pyLower (agetD m "xml-roles" "")
    let r := pyLower (agetD m "role" "")
    if (t = "input" ∨ t = "textarea" ∨ t = "select" ∨ t = "button") ∨
        (r = "button" ∨ r = "checkbox" ∨ r = "radio" ∨ r = "combobox" ∨ r = "listbox" ∨
          r = "textbox" ∨ r = "searchbox" ∨ r = "slider" ∨ r = "spinbutton" ∨
          r = "menuitem" ∨ r = "option" ∨ r = "switch" ∨ r = "tab" ∨ r = "treeitem") ∨
        (xmlr = "button" ∨ xmlr = "checkbox" ∨ xmlr = "radio" ∨ xmlr = "combobox" ∨
          xmlr = "listbox" ∨ xmlr = "textbox" ∨ xmlr = "searchbox" ∨ xmlr = "slider" ∨
          xmlr = "spinbutton" ∨ xmlr = "menuitem" ∨ xmlr = "option" ∨ xmlr = "switch" ∨
          xmlr = "tab" ∨ xmlr = "treeitem")
    then aset m "fsFormField" "true" else m
  else m

/-- Default `type` from `text-input-type` for input/textarea. -/
def formType (t : String) (m : AttrMap) : AttrMap :=
  if (t = "input" ∨ t = "textarea") ∧ ¬ acontains m "type" then
    if truthy (aget m "text-input-type")
    then aset m "type" (pyStr (aget m "text-input-type")) else m
  else m

/-- Default `name` from `html-input-name` for input/textarea/select. -/
def formName (t : String) (m : AttrMap) : AttrMap :=
  if (t = "input" ∨ t = "textarea" ∨ t = "select") ∧ ¬ acontains m "name" then
    let hin := pyStrip (agetD m "html-input-name" "")
    if hin ≠ "" then aset m "name" hin else m
  else m

/-- Default `multiline` true for textarea, false for input. -/
def formMultiline (t : String) (m : AttrMap) : AttrMap :=
  if ¬ acontains m "multiline" then
    if t = "textarea" then aset m "multiline" "true"
    else if t = "input" then aset m "multiline" "false"
    else m
  else m

/-- Default `required` from NVDA states. -/
def formRequired (n : Node) (m : AttrMap) : AttrMap :=
  if ¬ acontains m "required" then
    if stateIn n StateC.REQUIRED ∨ hasStateName n "required"
    then aset m "required" "true" else m
  else m

/-- Default `label`: prefer the node name when attribute-sourced, else
route the description to `description`/`title`/`label` by provenance. -/
def formLabel (n : Node) (m : AttrMap) : AttrMap :=
  if ¬ acontains m "label" then
    let nm := pyStrip (pyStr n.nm)
    if nm ≠ "" ∧ pyLower (agetD m "name-from" "") = "attribute" then
      aset m "label" nm
    else
      let desc := pyStrip (pyStr n.desc)
      if desc ≠ "" then
        let df := pyLower (agetD m "description-from" "")
        if df = "aria-describedby" then aset m "description" desc
        else if df = "tooltip" then aset m "title" desc
        else aset m "label" desc
      else m
  else m

/-- `_infer_form_attrs(obj, attrs)`. -/
def inferFormAttrs (n : Node) (attrs : AttrMap) : AttrMap :=
  let m1 := formChecked attrs
  let m2 := formTooltip m1
  let t := formT n m2
  let m3 := formFsStrip t m2
  let m4 := formFsInfer t m3
  let m5 := formType t m4
  let m6 := formName t m5
  let m7 := formMultiline t m6
  let m8 := formRequired n m7
  formLabel n m8

/-! ### `_infer_expanded_for_combobox` -/

/-- Up to 50 nodes of a `next`-sibling chain (`_iter_children`'s inner
loop). -/
def sibTake : Option Node → Nat → List Node
  | some c, Nat.succ f => c :: sibTake c.nextSib f
  | _, _ => []

/-- `_iter_children` BFS.  The Python guards against revisiting with an
`id`-based seen set; on the tree-shaped graphs expressible here each
object is reached at most once, so the seen set never triggers and is
omitted. -/
def iterChildrenAux : List Node → Nat → List Node
  | _, 0 => []
  | [], _ => []
  | cur :: queue, Nat.succ f =>
    cur :: iterChildrenAux (queue ++ sibTake cur.firstChild 50) f

def iterChildren (root : Node) (maxNodes : Nat) : List Node :=
  iterChildrenAux [root] maxNodes

/-- `_infer_expanded_for_combobox(obj, chain, attrs)`. -/
def inferExpandedForCombobox (n : Node) (chain : List Node) (attrs : AttrMap) : AttrMap :=
  let xmlRoles := pyLower (agetD attrs "xml-roles" "")
  let role := pyLower (agetD attrs "role" "")
  let haspopup := pyLower (agetD attrs "haspopup" "")
  let isCombo := pyIn "combobox" xmlRoles ∨ role = "combobox" ∨ haspopup = "listbox"
  if ¬ isCombo then attrs
  else if acontains attrs "expanded" then attrs
  else if chain.any (fun o =>
      let cls := pyLower (agetD (ia2attrs o) "class" "")
      pyIn "a8sbwf" cls && pyIn "emcav" cls) then
    aset attrs "expanded" "true"
  else
    let start :=
      match chain.find? (fun o =>
          decide (tagOf o = "div") && pyIn "a8sbwf" (pyLower (agetD (ia2attrs o) "class" ""))) with
      | some o => o
      | Option.none =>
        match chain.find? (fun o => decide (tagOf o = "div")) with
        | some o => o
        | Option.none => n
    let found := (iterChildren start 260).any (fun node =>
      decide (pyLower (agetD (ia2attrs node) "xml-roles" "") = "listbox") ||
      decide (pyLower (agetD (ia2attrs node) "role" "") = "listbox"))
    aset attrs "expanded" (if found then "true" else "false")

/-- Strip `MSAA Role` outside the control-tag allowlist. -/
def stepMsaaStrip (m : AttrMap) : AttrMap :=
  if acontains m "MSAA Role" ∧ ¬ isControlTag (pyLower (pyStrip (agetD m "tag" "")))
  then aerase m "MSAA Role" else m

/-- Strip `readonly` on the root document. -/
def stepReadonlyStrip (m : AttrMap) : AttrMap :=
  if pyLower (pyStrip (agetD m "tag" "")) = "#document" then aerase m "readonly" else m

/-- Mirror an aria-describedby description into `describedby-text`. -/
def stepDescText (m : AttrMap) : AttrMap :=
  let df := pyLower (pyStrip (agetD m "description-from" ""))
  let desc := pyStrip (agetD m "description" "")
  if df = "aria-describedby" ∧ desc ≠ "" ∧ ¬ acontains m "describedby-text"
  then aset m "describedby-text" desc else m

/-- `_augment_attrs_for_readability(obj, chain, attrs, base_obj)`
(`baseObj` is only consumed by debug logging). -/
def augment (n : Node) (chain : List Node) (attrs : AttrMap) (baseObj : Node) : AttrMap :=
  let t := tagOf n
  let m1 := stepTag t attrs
  let m2 := stepAccName n m1
  let cf := computedFromOf n m2
  let m3 := stepNameFrom cf m2
  let m4 := stepExplicitName cf m3
  let m5 := stepExpanded n m4
  let m6 := stepSelected n m5
  let m7 := stepChecked n m6
  let m8 := stepPressed n m7
  let m9 := stepSpans n t m8
  let m10 := stepLayout t m9
  let m11 := stepTabindex n m10
  let m12 := inferFormAttrs n m11
  let m13 := inferExpandedForCombobox n chain m12
  let m14 := stepMsaaStrip m13
  let m15 := stepReadonlyStrip m14
  stepDescText m15

/-- The keys the inference engine may rewrite or remove even when they
arrive non-empty: the checked/pressed normalizations, the removal of
the `aria-pressed` hint, the tooltip label-to-title move, the
`fsFormField`/`readonly`/`MSAA Role` stripping, the state-driven
expanded rewrite, the provenance refinement of
`accessible-name-from`, and the description routing that can overwrite
`description`/`title`. -/
def augmentExceptionKeys : List String :=
  ["accessible-name-from", "expanded", "aria-pressed", "pressed", "checked",
   "label", "fsFormField", "description", "title", "MSAA Role", "readonly"]

def cC5node : Node :=
  Node.mk (IA2Source.dict []) Option.none Option.none Option.none Option.none
    [StateV.mk StateC.COLLAPSED "collapsed"] Option.none Option.none Option.none
    Option.none Option.none Option.none Option.none Option.none

def wC6on : Node :=
  Node.mk (IA2Source.dict []) Option.none Option.none Option.none Option.none
    [StateV.mk StateC.OTHER "on"] Option.none Option.none Option.none
    Option.none Option.none Option.none Option.none Option.none

def wC6off : Node :=
  Node.mk (IA2Source.dict []) Option.none Option.none Option.none Option.none
    [StateV.mk StateC.OTHER "off"] Option.none Option.none Option.none
    Option.none Option.none Option.none Option.none Option.none

def cC1node : Node := bareNode (IA2Source.dict [])

def cC1attrs : AttrMap := [("tag", "span"), ("role", "link"), ("aria-pressed", "true")]

/-! ## Canonical-element selection and the plain report -/

/-- `_is_contenteditable_host(o)`. -/
def isContenteditableHost (o : Node) : Bool :=
  let a := ia2attrs o
  if pyLower (pyStr (aget a "contenteditable")) = "true" ∨
      pyLower (pyStr (aget a "contenteditable")) = "1" then true
  else if acontains a "multiline" ∨ acontains a "tabindex" ∨
      agetD a "id" "" = "prompt-textarea" then
    decide (tagOf o = "div" ∨ tagOf o = "textarea" ∨ tagOf o = "section")
  else false

/-- The walk of `_prefer_interactive_container` (up to 7 parent steps,
`none` when no match is found within the budget). -/
def picGo : Option Node → Nat → Option Node
  | some cur, Nat.succ fuel =>
    let a := ia2attrs cur
    let t := pyLower (pyStrip (agetD a "tag" ""))
    let roleL := pyLower (pyStrip (agetD a "role" ""))
    let xmlL := pyLower (pyStrip (agetD a "xml-roles" ""))
    let hasp := pyLower (pyStrip (agetD a "haspopup" ""))
    let tab := pyStrip (agetD a "tabindex" "")
    let fsff := pyLower (pyStrip (agetD a "fsFormField" ""))
    if t = "button" then some cur
    else if (roleL = "button" ∨ xmlL = "button") ∧ tab = "0" then some cur
    else if hasp = "menu" ∨ hasp = "listbox" ∨ hasp = "dialog" ∨ hasp = "tree" ∨
        hasp = "grid" then some cur
    else if fsff = "true" ∧ (roleL ≠ "" ∨ xmlL ≠ "") then some cur
    else if cur.roleC = some RoleC.BUTTON then some cur
    else picGo cur.parent fuel
  | _, _ => Option.none

/-- `_prefer_interactive_container(obj)`: the original object when no
interactive container is found within 7 steps. -/
def preferInteractiveContainer (o : Node) : Node :=
  (picGo (some o) 7).getD o

/-- `_promote_canonical(obj, chain)` for a non-`None` object. -/
def promoteCanonical (obj : Node) (chain : List Node) : Node × Option Node :=
  if chain.isEmpty then (preferInteractiveContainer obj, Option.none)
  else
    let curTag := tagOf obj
    if (curTag = "img" ∨ curTag = "svg") ∧ (findNearestTag chain "a").isSome then
      ((findNearestTag chain "a").getD obj, some obj)
    else if (curTag = "p" ∨ curTag = "span" ∨ curTag = "br") ∧
        (chain.find? (fun o => isContenteditableHost o)).isSome then
      (preferInteractiveContainer ((chain.find? (fun o => isContenteditableHost o)).getD obj),
        some obj)
    else (preferInteractiveContainer obj, Option.none)

/-- `_get_candidate_object()`: browse-mode caret object first, then the
navigator object, then the focus object. -/
def candidateObject (e : Env) : Option Node :=
  let caret :=
    match e.focus with
    | some f =>
      if (match f.ti with
          | some t => t.isBrowseMode
          | Option.none => false) then e.caretObj
      else Option.none
    | Option.none => Option.none
  match caret with
  | some o => some o
  | Option.none =>
    match e.nav with
    | some nav => some nav
    | Option.none => e.focus

/-- The `_is_browse_mode_obj` helper of `_is_web_context`. -/
def isBrowseModeObj (o : Node) : Bool :=
  match o.ti with
  | Option.none => false
  | some t => t.isBrowseMode || t.quickNavPassThrough

/-- `_is_web_context(base_obj)` for a non-`None` object.  The
`focus is not base_obj` identity checks are modelled by structural
inequality. -/
def isWebContext (e : Env) (baseObj : Node) : Bool :=
  if isBrowseModeObj baseObj then true
  else
    let focusDiff : Option Node :=
      match e.focus with
      | some f => if nodeBeq f baseObj then Option.none else some f
      | Option.none => Option.none
    if (match focusDiff with
        | some f => isBrowseModeObj f
        | Option.none => false) then true
    else
      let baseChain := domChain (some baseObj) 40
      if baseChain.any (fun o => decide (tagOf o = "#document")) then true
      else if documentUrl e baseObj baseChain ≠ "" then true
      else
        match focusDiff with
        | Option.none => false
        | some f =>
          let fchain := domChain (some f) 40
          if fchain.any (fun o => decide (tagOf o = "#document")) then true
          else if documentUrl e f fchain ≠ "" then true
          else false

/-- The `#document`-only candidate fallback of `_build_report`
(re-query navigator, then focus, keeping the longer chain): the
`len(chain) == 1 and _tag(chain[0]) == "#document"` retry test. -/
def stuckAtDocument (bc : Node × List Node) : Bool :=
  decide (bc.2.length = 1) && (match bc.2.head? with
    | some h => decide (tagOf h = "#document")
    | Option.none => false)

def adjustCandidate (e : Env) (base : Node) (chain : List Node) : Node × List Node :=
  let bc0 := (base, chain)
  let bc1 :=
    if stuckAtDocument bc0 then
      match e.nav with
      | some alt =>
        if nodeBeq alt base then bc0
        else
          let altChain := domChain (some alt) 40
          if chain.length < altChain.length then (alt, altChain) else bc0
      | Option.none => bc0
    else bc0
  if stuckAtDocument bc1 then
    match e.focus with
    | some alt =>
      if nodeBeq alt bc1.1 then bc1
      else
        let altChain := domChain (some alt) 40
        if bc1.2.length < altChain.length then (alt, altChain) else bc1
    | Option.none => bc1
  else bc1

/-- `c_tag = c_attrs.get("tag", _tag(o)) or "unknown"`. -/
def tagForBlock (o : Node) (attrs : AttrMap) : String :=
  let t := (aget attrs "tag").getD (tagOf o)
  if t ≠ "" then t else "unknown"

/-- One rendered node of the plain report:
`_format_tag_block(tag, augmented).rstrip()`. -/
def renderNode (e : Env) (baseObj : Node) (o : Node) : String :=
  let chain := domChain (some o) 40
  let raw := ia2attrs o
  let attrs := augment o chain raw baseObj
  pyRstrip (formatTagBlock (tagForBlock o attrs) attrs)

/-- The `lines` list built by `_build_report(advanced=False)` once a
candidate object passed the web-context gate. -/
def reportLinesFor (e : Env) (base0 : Node) : List String :=
  let chain0 := domChain (some base0) 40
  let bc := adjustCandidate e base0 chain0
  let base := bc.1
  let baseChain := bc.2
  let pc := promoteCanonical base baseChain
  let canonical := pc.1
  let promotedFrom := pc.2
  let canonicalChain := domChain (some canonical) 40
  let nested :=
    match promotedFrom with
    | some p => if nodeBeq p canonical then [] else ["Nested element:", renderNode e base p]
    | Option.none => []
  ["Element Information:", renderNode e base canonical]
    ++ nested
    ++ (canonicalChain.drop 1).map (fun anc => renderNode e base anc)

/-- The fixed messages of `_build_report`. -/
def noElementMsg : String := "No element found."

def browseModeOnlyMsg : String :=
  "HTML Element Inspector works only when Browse Mode (virtual buffer) is available."

/-- `_build_report(advanced=False)`: the `(text, ok)` pair. -/
def buildReportPlain (e : Env) : String × Bool :=
  match candidateObject e with
  | Option.none => (noElementMsg, false)
  | some base0 =>
    if isWebContext e base0 = false then (browseModeOnlyMsg, false)
    else (pyStrip (pyJoin "\n" (reportLinesFor e base0)) ++ "\n", true)

def wC7node : Node := bareNode (IA2Source.dict [("tag", "span")])

def wC7env : Env := Env.mk Option.none (some wC7node) Option.none

def wC2doc : Node := bareNode (IA2Source.dict [("tag", "#document")])

def wC2link : Node :=
  bareNodeP (IA2Source.dict [("tag", "a"), ("href", "https://example.com/")]) wC2doc

def wC2img : Node := bareNodeP (IA2Source.dict [("tag", "img")]) wC2link

def wC2env : Env := Env.mk Option.none (some wC2img) Option.none

theorem aget_append (m1 m2 : AttrMap) (key : String) :
    aget (m1 ++ m2) key = ((aget m1 key).or (aget m2 key)) := by
  induction m1 with
  | nil => simp [aget]
  | cons p rest ih =>
    obtain ⟨k, v⟩ := p
    by_cases h : k = key <;> simp [aget, h, ih]

theorem aget_aset (m : AttrMap) (key v key' : String) :
    aget (aset m key v) key' = if key' = key then some v else aget m key' := by
  induction m with
  | nil =>
    by_cases h : key' = key
    · simp [aset, aget, h]
    · have h2 : ¬ key = key' := fun hh => h hh.symm
      simp [aset, aget, h, h2]
  | cons p rest ih =>
    obtain ⟨k, w⟩ := p
    by_cases hk : k = key
    · subst hk
      by_cases h : key' = k
      · subst h
        simp [aset, aget]
      · have h2 : ¬ k = key' := fun hh => h hh.symm
        simp [aset, aget, h, h2]
    · by_cases h : k = key'
      · subst h
        simp [aset, aget, hk]
      · simp [aset, aget, hk, h, ih]

theorem aget_aerase (m : AttrMap) (key key' : String) :
    aget (aerase m key) key' = if key' = key then Option.none else aget m key' := by
  induction m with
  | nil => simp [aerase, aget]
  | cons p rest ih =>
    obtain ⟨k, v⟩ := p
    by_cases hk : k = key
    · subst hk
      by_cases h' : key' = k
      · subst h'
        simpa [aerase, aget] using ih
      · have h2 : ¬ k = key' := fun hh => h' hh.symm
        simpa [aerase, aget, h', h2] using ih
    · by_cases h' : k = key'
      · subst h'
        simp [aerase, aget, hk]
      · simpa [aerase, aget, hk, h'] using ih

theorem acontains_aset (m : AttrMap) (key v key' : String) :
    acontains (aset m key v) key' = (key' = key || acontains m key') := by
  by_cases h : key' = key <;> simp [acontains, aget_aset, h]

theorem acontains_aerase (m : AttrMap) (key key' : String) :
    acontains (aerase m key) key' = (key' ≠ key && acontains m key') := by
  by_cases h : key' = key <;> simp [acontains, aget_aerase, h]

theorem mem_keysOf_iff (m : AttrMap) (key : String) :
    key ∈ keysOf m ↔ (aget m key).isSome := by
  induction m with
  | nil => simp [keysOf, aget]
  | cons p rest ih =>
    obtain ⟨k, v⟩ := p
    by_cases hk : k = key
    · subst hk
      simp [keysOf, aget]
    · have h2 : ¬ key = k := fun h => hk h.symm
      simpa [keysOf, aget, hk, h2] using ih

theorem aget_of_mem_of_nodup (m : AttrMap) (p : String × String)
    (hnd : (keysOf m).Nodup) (hp : p ∈ m) : aget m p.1 = some p.2 := by
  induction m with
  | nil => simp at hp
  | cons q rest ih =>
    obtain ⟨k, v⟩ := q
    simp only [keysOf, List.map_cons, List.nodup_cons] at hnd
    rcases List.mem_cons.mp hp with h | h
    · subst h
      simp [aget]
    · have hkne : k ≠ p.1 := by
        intro hk
        exact hnd.1 (hk ▸ (by simpa [keysOf] using List.mem_map_of_mem Prod.fst h))
      simpa [aget, hkne] using ih hnd.2 h

theorem keysOf_aset_of_mem (m : AttrMap) (key v : String)
    (h : (aget m key).isSome) : keysOf (aset m key v) = keysOf m := by
  induction m with
  | nil => simp [aget] at h
  | cons p rest ih =>
    obtain ⟨k, w⟩ := p
    by_cases hk : k = key
    · subst hk
      simp [aset, keysOf]
    · have hm : (aget rest key).isSome := by simpa [aget, hk] using h
      simp [aset, keysOf, hk]
      simpa [keysOf] using ih hm

theorem aset_of_not_mem (m : AttrMap) (key v : String)
    (h : ¬ (aget m key).isSome) : aset m key v = m ++ [(key, v)] := by
  induction m with
  | nil => simp [aset]
  | cons p rest ih =>
    obtain ⟨k, w⟩ := p
    by_cases hk : k = key
    · subst hk
      simp [aget] at h
    · have hm : ¬ (aget rest key).isSome := by simpa [aget, hk] using h
      simp [aset, hk, ih hm]

theorem keysOf_aset_of_not_mem (m : AttrMap) (key v : String)
    (h : ¬ (aget m key).isSome) : keysOf (aset m key v) = keysOf m ++ [key] := by
  rw [aset_of_not_mem m key v h]
  simp [keysOf]

theorem nodup_keysOf_aset (m : AttrMap) (key v : String)
    (hnd : (keysOf m).Nodup) : (keysOf (aset m key v)).Nodup := by
  by_cases h : (aget m key).isSome
  · rw [keysOf_aset_of_mem m key v h]
    exact hnd
  · rw [keysOf_aset_of_not_mem m key v h]
    have hnm : key ∉ keysOf m := fun hk => h ((mem_keysOf_iff m key).mp hk)
    simp [List.nodup_append, hnd, hnm]

/-- C3: every node the ancestry walker returns carries a non-empty
extracted `tag`; any `#document`-tagged node can only sit at the end of
the chain (so there is at most one, and the chain stops at it,
inclusive); and the chain length never exceeds the depth budget
(default 40). -/
theorem C3_chain_invariants (start : Option Node) (depth : Nat) :
    (∀ n ∈ domChain start depth, agetD (ia2attrs n) "tag" "" ≠ "") ∧
    (domChain start depth).length ≤ depth ∧
    (∀ n ∈ (domChain start depth).dropLast, tagOf n ≠ "#document") := by
  induction depth generalizing start with
  | zero =>
    cases start <;> simp [domChain]
  | succ fuel ih =>
    match start with
    | Option.none => simp [domChain]
    | some cur =>
      by_cases htag : agetD (ia2attrs cur) "tag" "" ≠ ""
      · by_cases hdoc : pyLower (pyStrip (agetD (ia2attrs cur) "tag" "")) = "#document"
        · have hch : domChain (some cur) (fuel + 1) = [cur] := by
            simp [domChain, htag, hdoc]
          refine ⟨?_, ?_, ?_⟩
          · intro n hn
            rw [hch] at hn
            simp at hn
            subst hn
            exact htag
          · rw [hch]
            simp
          · intro n hn
            rw [hch] at hn
            simp at hn
        · have hch : domChain (some cur) (fuel + 1) = cur :: domChain cur.parent fuel := by
            simp [domChain, htag, hdoc]
          obtain ⟨ih1, ih2, ih3⟩ := ih cur.parent
          refine ⟨?_, ?_, ?_⟩
          · intro n hn
            rw [hch] at hn
            rcases List.mem_cons.mp hn with h | h
            · subst h; exact htag
            · exact ih1 n h
          · rw [hch]
            simpa using ih2
          · intro n hn
            rw [hch] at hn
            match hrest : domChain cur.parent fuel with
            | [] =>
              rw [hrest] at hn
              simp at hn
            | r :: rs =>
              rw [hrest] at hn
              rw [List.dropLast_cons₂] at hn
              rcases List.mem_cons.mp hn with h | h
              · subst h
                exact hdoc
              · exact ih3 n (by rw [hrest]; exact h)
      · have hch : domChain (some cur) (fuel + 1) = domChain cur.parent fuel := by
          simp [domChain, htag]
        obtain ⟨ih1, ih2, ih3⟩ := ih cur.parent
        rw [hch]
        exact ⟨ih1, Nat.le_succ_of_le ih2, ih3⟩

/-- C3 witness: the invariants applied to a concrete two-node chain. -/
theorem C3_chain_invariants_witness :
    agetD (ia2attrs wC3child) "tag" "" ≠ "" ∧
    (domChain (some wC3child) 40).length ≤ 40 :=
  ⟨(C3_chain_invariants (some wC3child) 40).1 wC3child
    (by rw [show domChain (some wC3child) 40 = [wC3child, wC3doc] from rfl]
        exact List.mem_cons_self _ _),
   (C3_chain_invariants (some wC3child) 40).2.1⟩

theorem dropWhile_idem (p : Char → Bool) (l : List Char) :
    (l.dropWhile p).dropWhile p = l.dropWhile p := by
  induction l with
  | nil => rfl
  | cons a t ih =>
    by_cases h : p a
    · simpa [List.dropWhile, h] using ih
    · simp [List.dropWhile, h]

theorem dropTrailingWs_prefix (m : List Char) : dropTrailingWs m <+: m := by
  unfold dropTrailingWs
  have h := List.dropWhile_suffix (l := m.reverse) (p := isPyWs)
  have h2 := List.reverse_prefix.mpr h
  simpa using h2

theorem dropLeadingWs_of_prefix (m t : List Char)
    (hp : t <+: m) (hm : m.dropWhile isPyWs = m) :
    t.dropWhile isPyWs = t := by
  cases t with
  | nil => rfl
  | cons a t' =>
    cases m with
    | nil => simp at hp
    | cons b m' =>
      obtain ⟨r, hr⟩ := hp
      have hab : a = b := by
        have := congrArg (List.head?) hr
        simpa using this
      subst hab
      by_cases h : isPyWs a
      · rw [List.dropWhile_cons_of_pos h] at hm
        have hlen := congrArg List.length hm
        have hle : (List.dropWhile isPyWs m').length ≤ m'.length :=
          (List.dropWhile_suffix (l := m') (p := isPyWs)).sublist.length_le
        simp at hlen
        omega
      · simp [List.dropWhile, h]

theorem dropTrailingWs_idem (l : List Char) :
    dropTrailingWs (dropTrailingWs l) = dropTrailingWs l := by
  unfold dropTrailingWs
  rw [List.reverse_reverse, dropWhile_idem]

theorem pyStrip_idem (s : String) : pyStrip (pyStrip s) = pyStrip s := by
  unfold pyStrip
  congr 1
  have h1 : dropLeadingWs (dropTrailingWs (dropLeadingWs s.data))
      = dropTrailingWs (dropLeadingWs s.data) := by
    apply dropLeadingWs_of_prefix (dropLeadingWs s.data)
    · exact dropTrailingWs_prefix _
    · exact dropWhile_idem _ _
  rw [h1, dropTrailingWs_idem]

theorem pyStrip_empty : pyStrip "" = "" := rfl

theorem keyNorm_idem (k : String) : keyNorm (keyNorm k) = keyNorm k := by
  by_cases h1 : pyLower (pyStrip k) = "aria-describedby" ∨ pyLower (pyStrip k) = "describedby"
  · have e1 : keyNorm k = "describedby" := by
      unfold keyNorm aliasKeyStruct
      rw [if_pos h1]
    rw [e1]
    decide
  · by_cases h2 : pyLower (pyStrip k) = "aria-checked" ∨ pyLower (pyStrip k) = "checked" ∨
        pyLower (pyStrip k) = "ariachecked"
    · have e2 : keyNorm k = "checked" := by
        unfold keyNorm aliasKeyStruct
        rw [if_neg h1, if_pos h2]
      rw [e2]
      decide
    · have e3 : keyNorm k = pyStrip k := by
        unfold keyNorm aliasKeyStruct
        rw [if_neg h1, if_neg h2]
      rw [e3]
      unfold keyNorm aliasKeyStruct
      rw [pyStrip_idem]
      rw [if_neg h1, if_neg h2]

theorem mem_aset (m : AttrMap) (key v : String) (p : String × String)
    (hp : p ∈ aset m key v) : p ∈ m ∨ p = (key, v) := by
  induction m with
  | nil =>
    simp [aset] at hp
    right
    simp [hp]
  | cons q rest ih =>
    obtain ⟨k, w⟩ := q
    by_cases hk : k = key
    · subst hk
      simp [aset] at hp
      rcases hp with h | h
      · right
        simp [h]
      · left
        simp [h]
    · simp [aset, hk] at hp
      rcases hp with h | h
      · left
        simp [h]
      · rcases ih h with h2 | h2
        · left
          simp [h2]
        · right
          exact h2

theorem goodPair_inserted (k v : String) (h : pyStrip k ≠ "") :
    GoodPair (keyNorm k, pyStrip v) := by
  refine ⟨keyNorm_idem k, pyStrip_idem v, ?_⟩
  show pyStrip (keyNorm k) ≠ ""
  by_cases h1 : pyLower (pyStrip k) = "aria-describedby" ∨ pyLower (pyStrip k) = "describedby"
  · have e1 : keyNorm k = "describedby" := by
      unfold keyNorm aliasKeyStruct
      rw [if_pos h1]
    rw [e1]
    decide
  · by_cases h2 : pyLower (pyStrip k) = "aria-checked" ∨ pyLower (pyStrip k) = "checked" ∨
        pyLower (pyStrip k) = "ariachecked"
    · have e2 : keyNorm k = "checked" := by
        unfold keyNorm aliasKeyStruct
        rw [if_neg h1, if_pos h2]
      rw [e2]
      decide
    · have e3 : keyNorm k = pyStrip k := by
        unfold keyNorm aliasKeyStruct
        rw [if_neg h1, if_neg h2]
      rw [e3, pyStrip_idem]
      exact h

theorem structFold_eq_normFold :
    ∀ (es : List (String × String)) (acc : AttrMap) (ksl : Option String),
      (∀ p ∈ es, pyStrip p.1 ≠ "") → structFold es acc ksl = normFold es acc := by
  intro es
  induction es with
  | nil =>
    intro acc ksl _
    rfl
  | cons p rest ih =>
    intro acc ksl hes
    obtain ⟨k, v⟩ := p
    have hk : pyStrip k ≠ "" := hes (k, v) (by simp)
    show structFold ((k, v) :: rest) acc ksl = normFold ((k, v) :: rest) acc
    simp only [structFold, normFold, hk, if_true, ne_eq, not_false_eq_true, reduceIte]
    exact ih _ _ (fun p hp => hes p (List.mem_cons_of_mem _ hp))

theorem normFold_good :
    ∀ (es : List (String × String)) (acc : AttrMap),
      (∀ p ∈ es, pyStrip p.1 ≠ "") → (∀ p ∈ acc, GoodPair p) →
      ∀ p ∈ normFold es acc, GoodPair p := by
  intro es
  induction es with
  | nil =>
    intro acc _ hacc
    exact hacc
  | cons q rest ih =>
    intro acc hes hacc
    refine ih _ (fun p hp => hes p (List.mem_cons_of_mem _ hp)) ?_
    intro p hp
    rcases mem_aset _ _ _ p hp with h | h
    · exact hacc p h
    · rw [h]
      exact goodPair_inserted q.1 q.2 (hes q (List.mem_cons_self _ _))

theorem normFold_nodup :
    ∀ (es : List (String × String)) (acc : AttrMap),
      (keysOf acc).Nodup → (keysOf (normFold es acc)).Nodup := by
  intro es
  induction es with
  | nil =>
    intro acc h
    exact h
  | cons q rest ih =>
    intro acc h
    exact ih _ (nodup_keysOf_aset _ _ _ h)

theorem normFold_fixed :
    ∀ (rest : List (String × String)) (acc : AttrMap),
      (∀ p ∈ rest, GoodPair p) → (keysOf rest).Nodup →
      (∀ k ∈ keysOf rest, ¬ (aget acc k).isSome) →
      normFold rest acc = acc ++ rest := by
  intro rest
  induction rest with
  | nil =>
    intro acc _ _ _
    simp [normFold]
  | cons p rs ih =>
    intro acc hgood hnd hdisj
    obtain ⟨k, v⟩ := p
    obtain ⟨hg1, hg2, _⟩ := hgood (k, v) (List.mem_cons_self _ _)
    have hndc : k ∉ keysOf rs ∧ (keysOf rs).Nodup := by
      have : (k :: keysOf rs).Nodup := by simpa [keysOf] using hnd
      exact ⟨(List.nodup_cons.mp this).1, (List.nodup_cons.mp this).2⟩
    have hknotin : ¬ (aget acc k).isSome := hdisj k (by simp [keysOf])
    have step : normFold ((k, v) :: rs) acc = normFold rs (acc ++ [(k, v)]) := by
      simp only [normFold]
      rw [show keyNorm ((k, v) : String × String).1 = k from hg1,
        show pyStrip ((k, v) : String × String).2 = v from hg2,
        aset_of_not_mem _ _ _ hknotin]
    rw [step]
    rw [ih (acc ++ [(k, v)]) (fun p hp => hgood p (List.mem_cons_of_mem _ hp)) hndc.2 ?_]
    · simp
    · intro k2 hk2
      rw [aget_append]
      have hmem : k2 ∈ keysOf ((k, v) :: rs) := by
        show k2 ∈ k :: keysOf rs
        exact List.mem_cons_of_mem _ hk2
      have h1 : aget acc k2 = Option.none := by
        have := hdisj k2 hmem
        simpa [Option.not_isSome_iff_eq_none] using this
      have h2 : k ≠ k2 := fun hh => hndc.1 (hh ▸ hk2)
      simp [aget, h1, h2, Option.or]

/-- C4 idempotence core: on mappings whose keys strip to non-empty
strings, the structured alias-normalization pass is idempotent. -/
theorem aliasNormalize_idem (m : AttrMap) (hm : ∀ p ∈ m, pyStrip p.1 ≠ "") :
    aliasNormalize (aliasNormalize m) = aliasNormalize m := by
  have e1 : aliasNormalize m = normFold m [] := structFold_eq_normFold m [] Option.none hm
  have hgood : ∀ p ∈ normFold m [], GoodPair p :=
    normFold_good m [] hm (by intro p hp; simp at hp)
  have hkeys : ∀ p ∈ normFold m [], pyStrip p.1 ≠ "" := fun p hp => (hgood p hp).2.2
  have hnd : (keysOf (normFold m [])).Nodup := normFold_nodup m [] (by simp [keysOf])
  have e2 : aliasNormalize (normFold m []) = normFold (normFold m []) [] :=
    structFold_eq_normFold _ [] Option.none hkeys
  rw [e1, e2]
  rw [normFold_fixed (normFold m []) [] hgood hnd (by intro k hk; simp [aget])]
  simp

theorem aget_aset_ne (m : AttrMap) (k v key : String) (h : key ≠ k) :
    aget (aset m k v) key = aget m key := by
  rw [aget_aset]
  exact if_neg h

theorem aget_aerase_ne (m : AttrMap) (k key : String) (h : key ≠ k) :
    aget (aerase m k) key = aget m key := by
  rw [aget_aerase]
  exact if_neg h

theorem aliasKeyStruct_not_bad (ks ksl : String) (h : ks = "" ∨ ksl = pyLower ks) :
    aliasKeyStruct ks ksl ≠ "aria-describedby" ∧
    aliasKeyStruct ks ksl ≠ "aria-checked" ∧
    aliasKeyStruct ks ksl ≠ "ariachecked" := by
  unfold aliasKeyStruct
  by_cases h1 : ksl = "aria-describedby" ∨ ksl = "describedby"
  · rw [if_pos h1]
    refine ⟨?_, ?_, ?_⟩ <;> decide
  · by_cases h2 : ksl = "aria-checked" ∨ ksl = "checked" ∨ ksl = "ariachecked"
    · rw [if_neg h1, if_pos h2]
      refine ⟨?_, ?_, ?_⟩ <;> decide
    · rw [if_neg h1, if_neg h2]
      rcases h with h | h
      · subst h
        refine ⟨?_, ?_, ?_⟩ <;> decide
      · subst h
        refine ⟨?_, ?_, ?_⟩ <;> intro heq <;> subst heq
        · exact h1 (Or.inl (by decide))
        · exact h2 (Or.inl (by decide))
        · exact h2 (Or.inr (Or.inr (by decide)))

theorem structFold_cons_ne (k v : String) (rest : List (String × String))
    (acc : AttrMap) (ksl : Option String) (hk : pyStrip k ≠ "") :
    structFold ((k, v) :: rest) acc ksl
      = structFold rest
          (aset acc (aliasKeyStruct (pyStrip k) (pyLower (pyStrip k))) (pyStrip v))
          (some (pyLower (pyStrip k))) := by
  simp only [structFold, hk, ne_eq, not_false_eq_true, reduceIte]

theorem structFold_cons_empty (k v : String) (rest : List (String × String))
    (acc : AttrMap) (ksl : Option String) (hk : pyStrip k = "") :
    structFold ((k, v) :: rest) acc ksl
      = match ksl with
        | Option.none => acc
        | some l => structFold rest (aset acc (aliasKeyStruct (pyStrip k) l) (pyStrip v)) (some l) := by
  cases ksl <;> simp only [structFold, hk, ne_eq, not_true_eq_false, reduceIte]

theorem structFold_bad_none :
    ∀ (es : List (String × String)) (acc : AttrMap) (ksl : Option String) (b : String),
      (b = "aria-describedby" ∨ b = "aria-checked" ∨ b = "ariachecked") →
      aget acc b = Option.none → aget (structFold es acc ksl) b = Option.none := by
  intro es
  induction es with
  | nil =>
    intro acc ksl b _ hacc
    exact hacc
  | cons p rest ih =>
    intro acc ksl b hb hacc
    obtain ⟨k, v⟩ := p
    by_cases hks : pyStrip k = ""
    · cases ksl with
      | none =>
        rw [structFold_cons_empty k v rest acc Option.none hks]
        exact hacc
      | some l =>
        rw [structFold_cons_empty k v rest acc (some l) hks]
        refine ih _ _ b hb ?_
        have hnb := aliasKeyStruct_not_bad (pyStrip k) l (Or.inl hks)
        have hne : b ≠ aliasKeyStruct (pyStrip k) l := by
          rcases hb with h | h | h <;> subst h
          · exact fun hh => hnb.1 hh.symm
          · exact fun hh => hnb.2.1 hh.symm
          · exact fun hh => hnb.2.2 hh.symm
        rw [aget_aset_ne _ _ _ _ hne]
        exact hacc
    · rw [structFold_cons_ne k v rest acc ksl hks]
      refine ih _ _ b hb ?_
      have hnb := aliasKeyStruct_not_bad (pyStrip k) (pyLower (pyStrip k)) (Or.inr rfl)
      have hne : b ≠ aliasKeyStruct (pyStrip k) (pyLower (pyStrip k)) := by
        rcases hb with h | h | h <;> subst h
        · exact fun hh => hnb.1 hh.symm
        · exact fun hh => hnb.2.1 hh.symm
        · exact fun hh => hnb.2.2 hh.symm
      rw [aget_aset_ne _ _ _ _ hne]
      exact hacc

theorem acontains_structFold_mono :
    ∀ (es : List (String × String)) (acc : AttrMap) (ksl : Option String) (key : String),
      acontains acc key = true → acontains (structFold es acc ksl) key = true := by
  intro es
  induction es with
  | nil =>
    intro acc ksl key h
    exact h
  | cons p rest ih =>
    intro acc ksl key h
    obtain ⟨k, v⟩ := p
    by_cases hks : pyStrip k = ""
    · cases ksl with
      | none =>
        rw [structFold_cons_empty k v rest acc Option.none hks]
        exact h
      | some l =>
        rw [structFold_cons_empty k v rest acc (some l) hks]
        refine ih _ _ key ?_
        rw [acontains_aset]
        simp [h]
    · rw [structFold_cons_ne k v rest acc ksl hks]
      refine ih _ _ key ?_
      rw [acontains_aset]
      simp [h]

theorem fcnFold_frame :
    ∀ (ks : List String) (m : AttrMap) (key : String),
      pyLower key ≠ "formcontrolname" → aget (fcnFold ks m) key = aget m key := by
  intro ks
  induction ks with
  | nil =>
    intro m key _
    rfl
  | cons k rest ih =>
    intro m key hkey
    by_cases hc : pyLower k = "formcontrolname" ∧ k ≠ "formcontrolname"
    · have hne1 : key ≠ "formcontrolname" := by
        intro hh
        subst hh
        exact hkey (by decide)
      have hne2 : key ≠ k := by
        intro hh
        subst hh
        exact hkey hc.1
      show aget (if pyLower k = "formcontrolname" ∧ k ≠ "formcontrolname"
        then fcnFold rest (aset (aerase m k) "formcontrolname" (agetD m k ""))
        else fcnFold rest m) key = aget m key
      rw [if_pos hc, ih _ _ hkey, aget_aset_ne _ _ _ _ hne1, aget_aerase_ne _ _ _ hne2]
    · show aget (if pyLower k = "formcontrolname" ∧ k ≠ "formcontrolname"
        then fcnFold rest (aset (aerase m k) "formcontrolname" (agetD m k ""))
        else fcnFold rest m) key = aget m key
      rw [if_neg hc]
      exact ih _ _ hkey

theorem enrichOrientation_frame (m : AttrMap) (key : String)
    (h : key ≠ "orientation") : aget (enrichOrientation m) key = aget m key := by
  unfold enrichOrientation
  split
  · exact aget_aset_ne _ _ _ _ h
  · rfl

theorem enrichValuetext_frame (m : AttrMap) (key : String)
    (h : key ≠ "valuetext") : aget (enrichValuetext m) key = aget m key := by
  unfold enrichValuetext
  split
  · exact aget_aset_ne _ _ _ _ h
  · rfl

theorem enrichValue_frame (v : Option String) (m : AttrMap) (key : String)
    (h : key ≠ "value") : aget (enrichValue v m) key = aget m key := by
  unfold enrichValue
  split
  · split
    · exact aget_aset_ne _ _ _ _ h
    · split
      · exact aget_aset_ne _ _ _ _ h
      · show aget (if pyStrip (pyStr v) ≠ "" then aset m "value" (pyStrip (pyStr v)) else m) key
          = aget m key
        split
        · exact aget_aset_ne _ _ _ _ h
        · rfl
  · rfl

theorem enrichHrefA_frame (m : AttrMap) (key : String)
    (h1 : key ≠ "href") (h2 : key ≠ "value") :
    aget (enrichHrefA m) key = aget m key := by
  unfold enrichHrefA
  split
  · show aget (if pyStrip (agetD m "href" "") = "" ∧
        (pyStartsWith (pyStrip (agetD m "value" "")) "http://" = true ∨
          pyStartsWith (pyStrip (agetD m "value" "")) "https://" = true)
      then aerase (aset m "href" (pyStrip (agetD m "value" ""))) "value" else m) key
      = aget m key
    split
    · rw [aget_aerase_ne _ _ _ h2, aget_aset_ne _ _ _ _ h1]
    · rfl
  · rfl

theorem enrich_frame (v : Option String) (m : AttrMap) (key : String)
    (h1 : key ≠ "orientation") (h2 : key ≠ "valuetext")
    (h3 : pyLower key ≠ "formcontrolname") (h4 : key ≠ "value")
    (h5 : key ≠ "href") :
    aget (enrich v m) key = aget m key := by
  unfold enrich enrichFcn
  rw [enrichHrefA_frame _ _ h5 h4, enrichValue_frame _ _ _ h4,
    fcnFold_frame _ _ _ h3, enrichValuetext_frame _ _ h2,
    enrichOrientation_frame _ _ h1]

theorem ia2attrs_dict (n : Node) (es : List (String × String))
    (h : n.ia2 = IA2Source.dict es) :
    ia2attrs n = enrich n.val (structFold es [] Option.none) := by
  unfold ia2attrs
  rw [h]

theorem ia2attrs_blob (n : Node) (s : String) (h : n.ia2 = IA2Source.blob s) :
    ia2attrs n
      = enrich n.val (if pyStrip s ≠ "" then blobFold (blobParts s) [] else []) := by
  unfold ia2attrs
  rw [h]

theorem blobFold_adb_none :
    ∀ (ps : List String) (acc : AttrMap),
      aget acc "aria-describedby" = Option.none →
      aget (blobFold ps acc) "aria-describedby" = Option.none := by
  intro ps
  induction ps with
  | nil =>
    intro acc h
    exact h
  | cons p rest ih =>
    intro acc h
    refine ih _ ?_
    unfold blobEntry
    cases hsp : splitFirstColon p.data with
    | none => exact h
    | some kv =>
      obtain ⟨kcs, vcs⟩ := kv
      by_cases hc : pyLower (pyStrip ⟨kcs⟩) = "aria-describedby" ∨
          pyLower (pyStrip ⟨kcs⟩) = "describedby"
      · simp only [hc, reduceIte]
        rw [aget_aset_ne _ _ _ _ (by decide)]
        exact h
      · simp only [hc, reduceIte]
        have hne : "aria-describedby" ≠ pyStrip ⟨kcs⟩ := by
          intro hh
          apply hc
          left
          rw [← hh]
          decide
        rw [aget_aset_ne _ _ _ _ hne]
        exact h

theorem structFold_present_describedby :
    ∀ (es : List (String × String)) (acc : AttrMap) (ksl : Option String),
      (∀ p ∈ es, pyStrip p.1 ≠ "") →
      (∃ p ∈ es, pyLower (pyStrip p.1) = "aria-describedby" ∨
        pyLower (pyStrip p.1) = "describedby") →
      acontains (structFold es acc ksl) "describedby" = true := by
  intro es
  induction es with
  | nil =>
    intro acc ksl _ hex
    simp at hex
  | cons p rest ih =>
    intro acc ksl hes hex
    obtain ⟨k, v⟩ := p
    have hks : pyStrip k ≠ "" := hes (k, v) (List.mem_cons_self _ _)
    rw [structFold_cons_ne k v rest acc ksl hks]
    rcases hex with ⟨q, hq, hcase⟩
    rcases List.mem_cons.mp hq with hqh | hqt
    · subst hqh
      have hkey : aliasKeyStruct (pyStrip k) (pyLower (pyStrip k)) = "describedby" := by
        unfold aliasKeyStruct
        rw [if_pos hcase]
      refine acontains_structFold_mono _ _ _ _ ?_
      rw [hkey, acontains_aset]
      simp
    · exact ih _ _ (fun p hp => hes p (List.mem_cons_of_mem _ hp)) ⟨q, hqt, hcase⟩

theorem structFold_present_checked :
    ∀ (es : List (String × String)) (acc : AttrMap) (ksl : Option String),
      (∀ p ∈ es, pyStrip p.1 ≠ "") →
      (∃ p ∈ es, pyLower (pyStrip p.1) = "aria-checked" ∨
        pyLower (pyStrip p.1) = "checked" ∨ pyLower (pyStrip p.1) = "ariachecked") →
      acontains (structFold es acc ksl) "checked" = true := by
  intro es
  induction es with
  | nil =>
    intro acc ksl _ hex
    simp at hex
  | cons p rest ih =>
    intro acc ksl hes hex
    obtain ⟨k, v⟩ := p
    have hks : pyStrip k ≠ "" := hes (k, v) (List.mem_cons_self _ _)
    rw [structFold_cons_ne k v rest acc ksl hks]
    rcases hex with ⟨q, hq, hcase⟩
    rcases List.mem_cons.mp hq with hqh | hqt
    · subst hqh
      have hnd : ¬ (pyLower (pyStrip (k, v).1) = "aria-describedby" ∨
          pyLower (pyStrip (k, v).1) = "describedby") := by
        rcases hcase with h | h | h <;> rw [h] <;> decide
      have hkey : aliasKeyStruct (pyStrip k) (pyLower (pyStrip k)) = "checked" := by
        unfold aliasKeyStruct
        rw [if_neg hnd, if_pos hcase]
      refine acontains_structFold_mono _ _ _ _ ?_
      rw [hkey, acontains_aset]
      simp
    · exact ih _ _ (fun p hp => hes p (List.mem_cons_of_mem _ hp)) ⟨q, hqt, hcase⟩

/-- C4 counterexample: with a string-blob attribute source, the raw key
`aria-checked` is NOT collapsed to `checked` — the extracted mapping
keeps `aria-checked` verbatim and has no `checked` key, contradicting
the claim that checked-spelling keys always appear under `checked`. -/
theorem C4_counterexample :
    aget (ia2attrs cC4blobNode) "checked" = Option.none ∧
    aget (ia2attrs cC4blobNode) "aria-checked" = some "true" := by
  constructor <;> rfl

/-- C4 (amended): for a structured attribute source, keys meaning
described-by and checked collapse to the single keys `describedby` and
`checked` (no raw alias spelling survives, and for sources whose keys
strip to non-empty strings the canonical key is present whenever some
alias was); for a string-blob source only the described-by aliases
collapse, `checked` spellings staying verbatim; and the alias
normalization pass is idempotent on mappings whose keys strip to
non-empty strings (the stale-lowercase handling of empty keys can break
idempotence otherwise). -/
theorem C4_alias_collapse :
    (∀ (n : Node) (es : List (String × String)), n.ia2 = IA2Source.dict es →
      aget (ia2attrs n) "aria-describedby" = Option.none ∧
      aget (ia2attrs n) "aria-checked" = Option.none ∧
      aget (ia2attrs n) "ariachecked" = Option.none) ∧
    (∀ (n : Node) (es : List (String × String)), n.ia2 = IA2Source.dict es →
      (∀ p ∈ es, pyStrip p.1 ≠ "") →
      ((∃ p ∈ es, pyLower (pyStrip p.1) = "aria-describedby" ∨
          pyLower (pyStrip p.1) = "describedby") →
        acontains (ia2attrs n) "describedby" = true) ∧
      ((∃ p ∈ es, pyLower (pyStrip p.1) = "aria-checked" ∨
          pyLower (pyStrip p.1) = "checked" ∨ pyLower (pyStrip p.1) = "ariachecked") →
        acontains (ia2attrs n) "checked" = true)) ∧
    (∀ (n : Node) (s : String), n.ia2 = IA2Source.blob s →
      aget (ia2attrs n) "aria-describedby" = Option.none) ∧
    (∀ m : AttrMap, (∀ p ∈ m, pyStrip p.1 ≠ "") →
      aliasNormalize (aliasNormalize m) = aliasNormalize m) := by
  refine ⟨?_, ?_, ?_, ?_⟩
  · intro n es h
    rw [ia2attrs_dict n es h]
    refine ⟨?_, ?_, ?_⟩ <;>
      rw [enrich_frame _ _ _ (by decide) (by decide) (by decide) (by decide) (by decide)] <;>
      exact structFold_bad_none es [] Option.none _ (by simp) rfl
  · intro n es h hes
    rw [ia2attrs_dict n es h]
    constructor
    · intro hex
      have hget := enrich_frame n.val (structFold es [] Option.none) "describedby"
        (by decide) (by decide) (by decide) (by decide) (by decide)
      unfold acontains
      rw [hget]
      exact structFold_present_describedby es [] Option.none hes hex
    · intro hex
      have hget := enrich_frame n.val (structFold es [] Option.none) "checked"
        (by decide) (by decide) (by decide) (by decide) (by decide)
      unfold acontains
      rw [hget]
      exact structFold_present_checked es [] Option.none hes hex
  · intro n s h
    rw [ia2attrs_blob n s h]
    rw [enrich_frame _ _ _ (by decide) (by decide) (by decide) (by decide) (by decide)]
    split
    · exact blobFold_adb_none (blobParts s) [] rfl
    · rfl
  · intro m hm
    exact aliasNormalize_idem m hm

/-- C4 witness: the amended statement applied to a concrete structured
source and a concrete mapping. -/
theorem C4_alias_collapse_witness :
    aget (ia2attrs wC4dictNode) "aria-checked" = Option.none ∧
    acontains (ia2attrs wC4dictNode) "checked" = true ∧
    acontains (ia2attrs wC4dictNode) "describedby" = true ∧
    aliasNormalize (aliasNormalize [(" Aria-Checked ", " x ")])
      = aliasNormalize [(" Aria-Checked ", " x ")] :=
  ⟨(C4_alias_collapse.1 wC4dictNode _ rfl).2.1,
   (C4_alias_collapse.2.1 wC4dictNode _ rfl (by decide)).2 (by decide),
   (C4_alias_collapse.2.1 wC4dictNode _ rfl (by decide)).1 (by decide),
   C4_alias_collapse.2.2.2 _ (by decide)⟩

theorem dedupAppend_congr :
    ∀ (l s1 s2 : List String), (∀ x ∈ l, x ∈ s1 ↔ x ∈ s2) →
      dedupAppend l s1 = dedupAppend l s2 := by
  intro l
  induction l with
  | nil =>
    intro s1 s2 _
    rfl
  | cons k rest ih =>
    intro s1 s2 hiff
    have hk := hiff k (List.mem_cons_self _ _)
    by_cases h : k ∈ s1
    · rw [dedupAppend, dedupAppend, if_pos h, if_pos (hk.mp h)]
      exact ih _ _ (fun x hx => hiff x (List.mem_cons_of_mem _ hx))
    · rw [dedupAppend, dedupAppend, if_neg h, if_neg (fun hh => h (hk.mpr hh))]
      congr 1
      refine ih _ _ ?_
      intro x hx
      constructor
      · intro hmem
        rcases List.mem_cons.mp hmem with hh | hh
        · rw [hh]
          exact List.mem_cons_self k s2
        · exact List.mem_cons_of_mem _ ((hiff x (List.mem_cons_of_mem _ hx)).mp hh)
      · intro hmem
        rcases List.mem_cons.mp hmem with hh | hh
        · rw [hh]
          exact List.mem_cons_self k s1
        · exact List.mem_cons_of_mem _ ((hiff x (List.mem_cons_of_mem _ hx)).mpr hh)

theorem dedupAppend_eq_filter :
    ∀ (l seen : List String), l.Nodup →
      dedupAppend l seen = l.filter (fun k => decide (k ∉ seen)) := by
  intro l
  induction l with
  | nil =>
    intro seen _
    rfl
  | cons k rest ih =>
    intro seen hnd
    have hk : k ∉ rest := (List.nodup_cons.mp hnd).1
    have hrest : rest.Nodup := (List.nodup_cons.mp hnd).2
    by_cases h : k ∈ seen
    · rw [dedupAppend, if_pos h, ih seen hrest]
      rw [List.filter_cons_of_neg (by simpa using h)]
    · rw [dedupAppend, if_neg h]
      have hcongr : dedupAppend rest (k :: seen) = dedupAppend rest seen := by
        refine dedupAppend_congr rest (k :: seen) seen ?_
        intro x hx
        have hxk : x ≠ k := fun hh => hk (hh ▸ hx)
        simp [hxk]
      rw [hcongr, ih seen hrest, List.filter_cons_of_pos (by simpa using h)]

theorem preferredKeys_nodup : preferredKeys.Nodup := by decide

theorem orderedParams_perm (attrs : AttrMap) (hnd : (keysOf attrs).Nodup) :
    (orderedParams attrs).Perm (keysOf attrs) := by
  show (List.filter (fun k => acontains attrs k) preferredKeys
      ++ dedupAppend (pySortedKeys (keysOf attrs))
        (List.filter (fun k => acontains attrs k) preferredKeys)).Perm (keysOf attrs)
  have hSK : (pySortedKeys (keysOf attrs)).Perm (keysOf attrs) :=
    List.perm_insertionSort keyLe (keysOf attrs)
  have hSnd : (pySortedKeys (keysOf attrs)).Nodup := hSK.nodup_iff.mpr hnd
  rw [dedupAppend_eq_filter _ _ hSnd]
  have hfirstnd : (preferredKeys.filter (fun k => acontains attrs k)).Nodup :=
    List.Nodup.filter _ preferredKeys_nodup
  have hfiltnd : ((pySortedKeys (keysOf attrs)).filter
      (fun k => decide (k ∈ preferredKeys.filter (fun k => acontains attrs k)))).Nodup :=
    List.Nodup.filter _ hSnd
  have hmemiff : ∀ x, x ∈ preferredKeys.filter (fun k => acontains attrs k) ↔
      x ∈ (pySortedKeys (keysOf attrs)).filter
        (fun k => decide (k ∈ preferredKeys.filter (fun k => acontains attrs k))) := by
    intro x
    constructor
    · intro hx
      rw [List.mem_filter]
      refine ⟨?_, by simpa using hx⟩
      have hc : acontains attrs x = true := (List.mem_filter.mp hx).2
      have hxk : x ∈ keysOf attrs := (mem_keysOf_iff attrs x).mpr hc
      exact hSK.mem_iff.mpr hxk
    · intro hx
      simpa using (List.mem_filter.mp hx).2
  have hperm1 : (preferredKeys.filter (fun k => acontains attrs k)).Perm
      ((pySortedKeys (keysOf attrs)).filter
        (fun k => decide (k ∈ preferredKeys.filter (fun k => acontains attrs k)))) := by
    refine List.perm_of_nodup_nodup_toFinset_eq hfirstnd hfiltnd ?_
    ext a
    simp only [List.mem_toFinset]
    exact hmemiff a
  have hsplit : ((pySortedKeys (keysOf attrs)).filter
        (fun k => decide (k ∈ preferredKeys.filter (fun k => acontains attrs k)))
      ++ (pySortedKeys (keysOf attrs)).filter
        (fun k => decide (k ∉ preferredKeys.filter (fun k => acontains attrs k)))).Perm
      (pySortedKeys (keysOf attrs)) := by
    have := List.filter_append_perm
      (fun k => decide (k ∈ preferredKeys.filter (fun k => acontains attrs k)))
      (pySortedKeys (keysOf attrs))
    refine List.Perm.trans ?_ this
    refine List.Perm.append (List.Perm.refl _) ?_
    apply List.Perm.of_eq
    apply List.filter_congr
    intro x _
    simp
  exact List.Perm.trans
    (List.Perm.trans (List.Perm.append hperm1 (List.Perm.refl _)) hsplit) hSK

theorem orderedParams_keys_only (m1 m2 : AttrMap) (h : keysOf m1 = keysOf m2) :
    orderedParams m1 = orderedParams m2 := by
  have hc : ∀ k, acontains m1 k = acontains m2 k := by
    intro k
    have e1 := mem_keysOf_iff m1 k
    have e2 := mem_keysOf_iff m2 k
    rw [h] at e1
    unfold acontains
    cases h1 : (aget m1 k).isSome <;> cases h2 : (aget m2 k).isSome <;> simp_all
  have hfirst : List.filter (fun k => acontains m1 k) preferredKeys
      = List.filter (fun k => acontains m2 k) preferredKeys :=
    List.filter_congr (fun k _ => hc k)
  show (List.filter (fun k => acontains m1 k) preferredKeys
      ++ dedupAppend (pySortedKeys (keysOf m1))
        (List.filter (fun k => acontains m1 k) preferredKeys))
    = (List.filter (fun k => acontains m2 k) preferredKeys
      ++ dedupAppend (pySortedKeys (keysOf m2))
        (List.filter (fun k => acontains m2 k) preferredKeys))
  rw [hfirst, h]

theorem formatPairs_length :
    ∀ (keys : List String) (attrs : AttrMap),
      (formatPairs keys attrs).length
        = keys.countP (fun k => decide (pyStrip (agetD attrs k "") ≠ "")) := by
  intro keys
  induction keys with
  | nil =>
    intro attrs
    rfl
  | cons k rest ih =>
    intro attrs
    by_cases hv : pyStrip (agetD attrs k "") = ""
    · simp [formatPairs, List.filterMap_cons, hv, List.countP_cons] at ih ⊢
      exact ih attrs
    · simp [formatPairs, List.filterMap_cons, hv, List.countP_cons] at ih ⊢
      exact ih attrs

/-- C8: the parameter count `N` declared in the rendered header equals
the number of `key=value` lines in the block, which is exactly the
number of keys of the mapping whose stripped value is non-empty. -/
theorem C8_header_count (t : String) (attrs : AttrMap) (hnd : (keysOf attrs).Nodup) :
    formatTagBlockLines t attrs
      = "" :: ("Tag " ++ pyUpper t ++ " has "
          ++ toString (attrs.countP (fun p => decide (pyStrip p.2 ≠ ""))) ++ " parameters:")
        :: ((formatPairs (orderedParams attrs) attrs).map (fun p => p.1 ++ "=" ++ p.2) ++ [""]) ∧
    ((formatPairs (orderedParams attrs) attrs).map (fun p => p.1 ++ "=" ++ p.2)).length
      = attrs.countP (fun p => decide (pyStrip p.2 ≠ "")) := by
  have hlen : (formatPairs (orderedParams attrs) attrs).length
      = attrs.countP (fun p => decide (pyStrip p.2 ≠ "")) := by
    rw [formatPairs_length]
    rw [(orderedParams_perm attrs hnd).countP_eq]
    unfold keysOf
    rw [List.countP_map]
    refine List.countP_congr ?_
    intro p hp
    have hg := aget_of_mem_of_nodup attrs p hnd hp
    simp [agetD, hg, Function.comp]
  refine ⟨?_, by rw [List.length_map]; exact hlen⟩
  show "" :: ("Tag " ++ pyUpper t ++ " has "
      ++ toString (formatPairs (orderedParams attrs) attrs).length ++ " parameters:")
    :: ((formatPairs (orderedParams attrs) attrs).map (fun p => p.1 ++ "=" ++ p.2) ++ [""])
    = _
  rw [hlen]

/-- C8 witness: header count at a concrete mapping with an empty-valued
key. -/
theorem C8_header_count_witness :
    formatTagBlockLines "input" [("tag", "input"), ("title", "  "), ("name", "q")]
      = "" :: ("Tag " ++ pyUpper "input" ++ " has "
          ++ toString (([("tag", "input"), ("title", "  "), ("name", "q")] : AttrMap).countP
            (fun p => decide (pyStrip p.2 ≠ ""))) ++ " parameters:")
        :: ((formatPairs (orderedParams [("tag", "input"), ("title", "  "), ("name", "q")])
            [("tag", "input"), ("title", "  "), ("name", "q")]).map
              (fun p => p.1 ++ "=" ++ p.2) ++ [""]) :=
  (C8_header_count "input" [("tag", "input"), ("title", "  "), ("name", "q")] (by decide)).1

/-- C9 counterexample: two mappings with the same key set (hence key
lists that are permutations of each other) whose insertion orders
differ produce different `_ordered_params` results, because the
case-insensitive sort is stable and `"A"`/`"a"` compare equal. -/
theorem C9_counterexample :
    (keysOf [("A", "1"), ("a", "2")]).Perm (keysOf [("a", "2"), ("A", "1")]) ∧
    orderedParams [("A", "1"), ("a", "2")] ≠ orderedParams [("a", "2"), ("A", "1")] := by
  constructor
  · decide
  · decide

/-- C9 (amended): for a mapping with no duplicate keys, the key
ordering returns a permutation of the mapping's keys (no attribute is
dropped or duplicated), and the result depends only on the mapping's
key list (not on its values); for keys that compare equal
case-insensitively the insertion order can still matter. -/
theorem C9_ordered_params :
    (∀ attrs : AttrMap, (keysOf attrs).Nodup →
      (orderedParams attrs).Perm (keysOf attrs)) ∧
    (∀ m1 m2 : AttrMap, keysOf m1 = keysOf m2 → orderedParams m1 = orderedParams m2) :=
  ⟨orderedParams_perm, orderedParams_keys_only⟩

/-- C9 witness: the permutation and key-list dependence at concrete
mappings. -/
theorem C9_ordered_params_witness :
    (orderedParams [("href", "h"), ("zed", "z")]).Perm (keysOf [("href", "h"), ("zed", "z")]) ∧
    orderedParams [("q", "1")] = orderedParams [("q", "2")] :=
  ⟨C9_ordered_params.1 [("href", "h"), ("zed", "z")] (by decide),
   C9_ordered_params.2 [("q", "1")] [("q", "2")] rfl⟩

theorem urlShape_firstUrl (vs : List (Option String)) :
    firstUrl vs = "" ∨ urlShaped (firstUrl vs) = true := by
  induction vs with
  | nil => exact Or.inl rfl
  | cons v rest ih =>
    unfold firstUrl
    by_cases h : urlShaped (pyStrip (pyStr v)) = true
    · right
      simp [h]
    · simpa [h] using ih

/-- C10: each of the three fallback URL accessors returns either `""`
or a string starting with `http://` or `https://` (their failure modes
are all absorbed into `""` by construction); by contrast, a non-empty
stripped `href` attribute of the node itself is returned by the
resolver verbatim, with no such validation. -/
theorem C10_url_accessors :
    (∀ n : Node, tryAccValueUrl n = "" ∨ urlShaped (tryAccValueUrl n) = true) ∧
    (∀ n : Node, tryTreeInterceptorUrl n = "" ∨ urlShaped (tryTreeInterceptorUrl n) = true) ∧
    (∀ n : Node, tryAppmoduleUrl n = "" ∨ urlShaped (tryAppmoduleUrl n) = true) ∧
    (∀ (e : Env) (n : Node) (chain : List Node) (baseObj : Node),
      pyStrip (agetD (ia2attrs n) "href" "") ≠ "" →
      effectiveHref e n chain baseObj = pyStrip (agetD (ia2attrs n) "href" "")) := by
  refine ⟨?_, ?_, ?_, ?_⟩
  · intro n
    unfold tryAccValueUrl
    match n.accVal with
    | Option.none => exact Or.inl rfl
    | some v =>
      by_cases h : urlShaped (pyStrip v) = true
      · right
        simp [h]
      · left
        simp [h]
  · intro n
    unfold tryTreeInterceptorUrl
    match n.ti with
    | Option.none => exact Or.inl rfl
    | some t => exact urlShape_firstUrl _
  · intro n
    unfold tryAppmoduleUrl
    match n.am with
    | Option.none => exact Or.inl rfl
    | some a => exact urlShape_firstUrl _
  · intro e n chain baseObj h
    unfold effectiveHref
    by_cases hd : tagOf n = "#document"
    · rw [if_pos hd, if_pos h]
    · rw [if_neg hd, if_pos h]

/-- C10 witness: a node whose MSAA value is not HTTP(S) yields `""`
from the accessor, while its own non-HTTP `href` attribute is returned
verbatim by the resolver. -/
theorem C10_url_accessors_witness :
    (tryAccValueUrl wC10node = "" ∨ urlShaped (tryAccValueUrl wC10node) = true) ∧
    effectiveHref (Env.mk Option.none Option.none Option.none) wC10node [] wC10node
      = pyStrip (agetD (ia2attrs wC10node) "href" "") :=
  ⟨C10_url_accessors.1 wC10node,
   C10_url_accessors.2.2.2 (Env.mk Option.none Option.none Option.none) wC10node [] wC10node
     (by decide)⟩

/-! ### Per-step frame lemmas for the inference engine -/

theorem stepTag_frame (t : String) (m : AttrMap) (key : String) (h : key ≠ "tag") :
    aget (stepTag t m) key = aget m key := by
  unfold stepTag
  split
  · exact aget_aset_ne _ _ _ _ h
  · rfl

theorem stepTag_preserve (t : String) (m : AttrMap) (key v : String)
    (h : aget m key = some v) : aget (stepTag t m) key = some v := by
  by_cases hk : key = "tag"
  · subst hk
    unfold stepTag
    by_cases hc : t ≠ "" ∧ ¬ acontains m "tag"
    · exact absurd hc.2 (by simp [acontains, h])
    · rw [if_neg hc]
      exact h
  · rw [stepTag_frame t m key hk]
    exact h

theorem stepAccName_frame (n : Node) (m : AttrMap) (key : String)
    (h : key ≠ "accessible-name") : aget (stepAccName n m) key = aget m key := by
  unfold stepAccName
  split
  · exact aget_aset_ne _ _ _ _ h
  · rfl

theorem stepAccName_preserve (n : Node) (m : AttrMap) (key v : String)
    (h : aget m key = some v) : aget (stepAccName n m) key = some v := by
  by_cases hk : key = "accessible-name"
  · subst hk
    unfold stepAccName
    rw [if_neg (by simp [acontains, h])]
    exact h
  · rw [stepAccName_frame n m key hk]
    exact h

theorem stepNameFrom_frame (cf : String) (m : AttrMap) (key : String)
    (h : key ≠ "accessible-name-from") : aget (stepNameFrom cf m) key = aget m key := by
  unfold stepNameFrom
  split
  · exact aget_aset_ne _ _ _ _ h
  · rfl

theorem stepExplicitName_frame (cf : String) (m : AttrMap) (key : String)
    (h : key ≠ "explicit-name-from") : aget (stepExplicitName cf m) key = aget m key := by
  simp only [stepExplicitName]
  repeat' split
  all_goals first
    | rfl
    | exact aget_aset_ne _ _ _ _ h

theorem stepExplicitName_preserve (cf : String) (m : AttrMap) (key v : String)
    (h : aget m key = some v) (hne : pyStrip v ≠ "") :
    aget (stepExplicitName cf m) key = some v := by
  by_cases hk : key = "explicit-name-from"
  · subst hk
    simp only [stepExplicitName]
    split
    · rw [if_neg]
      · exact h
      · intro hc
        rcases hc with hc | hc
        · exact hc (by simp [acontains, h])
        · rw [show agetD m "explicit-name-from" "" = v by simp [agetD, h]] at hc
          exact hne hc
    · exact h
  · rw [stepExplicitName_frame cf m key hk]
    exact h

theorem stepExpanded_frame (n : Node) (m : AttrMap) (key : String)
    (h : key ≠ "expanded") : aget (stepExpanded n m) key = aget m key := by
  unfold stepExpanded
  repeat' split
  all_goals first
    | rfl
    | exact aget_aset_ne _ _ _ _ h

theorem stepSelected_frame (n : Node) (m : AttrMap) (key : String)
    (h : key ≠ "selected") : aget (stepSelected n m) key = aget m key := by
  simp only [stepSelected]
  repeat' split
  all_goals first
    | rfl
    | exact aget_aset_ne _ _ _ _ h

theorem stepSelected_preserve (n : Node) (m : AttrMap) (key v : String)
    (h : aget m key = some v) : aget (stepSelected n m) key = some v := by
  by_cases hk : key = "selected"
  · subst hk
    unfold stepSelected
    rw [if_neg (by simp [acontains, h])]
    exact h
  · rw [stepSelected_frame n m key hk]
    exact h

theorem stepChecked_frame (n : Node) (m : AttrMap) (key : String)
    (h : key ≠ "checked") : aget (stepChecked n m) key = aget m key := by
  simp only [stepChecked]
  repeat' split
  all_goals first
    | rfl
    | exact aget_aset_ne _ _ _ _ h

theorem stepChecked_preserve (n : Node) (m : AttrMap) (key v : String)
    (h : aget m key = some v) : aget (stepChecked n m) key = some v := by
  by_cases hk : key = "checked"
  · subst hk
    unfold stepChecked
    rw [if_neg (by simp [acontains, h])]
    exact h
  · rw [stepChecked_frame n m key hk]
    exact h

theorem pressedHintErase_frame (m : AttrMap) (key : String) (h : key ≠ "aria-pressed") :
    aget (pressedHintErase m) key = aget m key := by
  unfold pressedHintErase
  split
  · rfl
  · exact aget_aerase_ne _ _ _ h

theorem pressedToggle_frame (n : Node) (pfa : Option Bool) (m : AttrMap) (key : String)
    (h : key ≠ "pressed") : aget (pressedToggle n pfa m) key = aget m key := by
  simp only [pressedToggle]
  repeat' split
  all_goals first
    | rfl
    | exact aget_aset_ne _ _ _ _ h

theorem pressedToggle_preserve (n : Node) (pfa : Option Bool) (m : AttrMap) (key v : String)
    (h : aget m key = some v) : aget (pressedToggle n pfa m) key = some v := by
  by_cases hk : key = "pressed"
  · subst hk
    unfold pressedToggle
    rw [if_pos (by simp [acontains, h])]
    exact h
  · rw [pressedToggle_frame n pfa m key hk]
    exact h

theorem pressedTab_frame (m : AttrMap) (key : String) (h : key ≠ "pressed") :
    aget (pressedTab m) key = aget m key := by
  simp only [pressedTab]
  repeat' split
  all_goals first
    | rfl
    | exact aget_aset_ne _ _ _ _ h

theorem pressedTab_preserve (m : AttrMap) (key v : String)
    (h : aget m key = some v) : aget (pressedTab m) key = some v := by
  by_cases hk : key = "pressed"
  · subst hk
    unfold pressedTab
    rw [if_pos (by simp [acontains, h])]
    exact h
  · rw [pressedTab_frame m key hk]
    exact h

theorem pressedFallback_frame (pfa : Option Bool) (m : AttrMap) (key : String)
    (h : key ≠ "pressed") : aget (pressedFallback pfa m) key = aget m key := by
  simp only [pressedFallback]
  repeat' split
  all_goals first
    | rfl
    | exact aget_aset_ne _ _ _ _ h

theorem pressedFallback_preserve (pfa : Option Bool) (m : AttrMap) (key v : String)
    (h : aget m key = some v) : aget (pressedFallback pfa m) key = some v := by
  by_cases hk : key = "pressed"
  · subst hk
    unfold pressedFallback
    rw [if_pos (by simp [acontains, h])]
    exact h
  · rw [pressedFallback_frame pfa m key hk]
    exact h

theorem pressedNorm_frame (m : AttrMap) (key : String) (h : key ≠ "pressed") :
    aget (pressedNorm m) key = aget m key := by
  simp only [pressedNorm]
  repeat' split
  all_goals first
    | rfl
    | exact aget_aset_ne _ _ _ _ h

theorem stepPressed_frame (n : Node) (m : AttrMap) (key : String)
    (h1 : key ≠ "pressed") (h2 : key ≠ "aria-pressed") :
    aget (stepPressed n m) key = aget m key := by
  unfold stepPressed
  rw [pressedNorm_frame _ _ h1, pressedFallback_frame _ _ _ h1, pressedTab_frame _ _ h1,
    pressedToggle_frame _ _ _ _ h1, pressedHintErase_frame _ _ h2]

theorem spanCol_frame (n : Node) (m : AttrMap) (key : String) (h : key ≠ "colspan") :
    aget (spanCol n m) key = aget m key := by
  unfold spanCol
  split
  · exact aget_aset_ne _ _ _ _ h
  · rfl

theorem spanRow_frame (n : Node) (m : AttrMap) (key : String) (h : key ≠ "rowspan") :
    aget (spanRow n m) key = aget m key := by
  unfold spanRow
  split
  · exact aget_aset_ne _ _ _ _ h
  · rfl

theorem spanCol_preserve (n : Node) (m : AttrMap) (key v : String)
    (h : aget m key = some v) : aget (spanCol n m) key = some v := by
  by_cases hk : key = "colspan"
  · subst hk
    unfold spanCol
    rw [if_neg (by simp [acontains, h])]
    exact h
  · rw [spanCol_frame n m key hk]
    exact h

theorem spanRow_preserve (n : Node) (m : AttrMap) (key v : String)
    (h : aget m key = some v) : aget (spanRow n m) key = some v := by
  by_cases hk : key = "rowspan"
  · subst hk
    unfold spanRow
    rw [if_neg (by simp [acontains, h])]
    exact h
  · rw [spanRow_frame n m key hk]
    exact h

theorem stepSpans_frame (n : Node) (t : String) (m : AttrMap) (key : String)
    (h1 : key ≠ "colspan") (h2 : key ≠ "rowspan") :
    aget (stepSpans n t m) key = aget m key := by
  unfold stepSpans
  split
  · rw [spanRow_frame _ _ _ h2, spanCol_frame _ _ _ h1]
  · rfl

theorem stepSpans_preserve (n : Node) (t : String) (m : AttrMap) (key v : String)
    (h : aget m key = some v) : aget (stepSpans n t m) key = some v := by
  unfold stepSpans
  split
  · exact spanRow_preserve _ _ _ _ (spanCol_preserve _ _ _ _ h)
  · exact h

theorem stepLayout_frame (t : String) (m : AttrMap) (key : String)
    (h : key ≠ "layout-guess") : aget (stepLayout t m) key = aget m key := by
  unfold stepLayout
  split
  · exact aget_aset_ne _ _ _ _ h
  · rfl

theorem stepLayout_preserve (t : String) (m : AttrMap) (key v : String)
    (h : aget m key = some v) : aget (stepLayout t m) key = some v := by
  by_cases hk : key = "layout-guess"
  · subst hk
    unfold stepLayout
    rw [if_neg (by simp [acontains, h])]
    exact h
  · rw [stepLayout_frame t m key hk]
    exact h

theorem stepTabindex_frame (n : Node) (m : AttrMap) (key : String)
    (h : key ≠ "tabindex") : aget (stepTabindex n m) key = aget m key := by
  simp only [stepTabindex]
  repeat' split
  all_goals first
    | rfl
    | exact aget_aset_ne _ _ _ _ h

theorem stepTabindex_preserve (n : Node) (m : AttrMap) (key v : String)
    (h : aget m key = some v) : aget (stepTabindex n m) key = some v := by
  by_cases hk : key = "tabindex"
  · subst hk
    unfold stepTabindex
    rw [if_neg (by simp [acontains, h])]
    exact h
  · rw [stepTabindex_frame n m key hk]
    exact h

theorem formChecked_frame (m : AttrMap) (key : String) (h : key ≠ "checked") :
    aget (formChecked m) key = aget m key := by
  simp only [formChecked]
  repeat' split
  all_goals first
    | rfl
    | exact aget_aset_ne _ _ _ _ h

theorem formTooltip_frame (m : AttrMap) (key : String)
    (h1 : key ≠ "label") (h2 : key ≠ "title") :
    aget (formTooltip m) key = aget m key := by
  simp only [formTooltip]
  split
  · rw [aget_aset_ne _ _ _ _ h2, aget_aerase_ne _ _ _ h1]
  · rfl

theorem formTooltip_preserve (m : AttrMap) (key v : String) (hk : key ≠ "label")
    (h : aget m key = some v) : aget (formTooltip m) key = some v := by
  by_cases hk2 : key = "title"
  · subst hk2
    unfold formTooltip
    rw [if_neg]
    · exact h
    · intro hc
      exact hc.2.2 (by simp [acontains, h])
  · rw [formTooltip_frame m key hk hk2]
    exact h

theorem formFsStrip_frame (t : String) (m : AttrMap) (key : String)
    (h : key ≠ "fsFormField") : aget (formFsStrip t m) key = aget m key := by
  unfold formFsStrip
  split
  · exact aget_aerase_ne _ _ _ h
  · rfl

theorem formFsInfer_frame (t : String) (m : AttrMap) (key : String)
    (h : key ≠ "fsFormField") : aget (formFsInfer t m) key = aget m key := by
  simp only [formFsInfer]
  repeat' split
  all_goals first
    | rfl
    | exact aget_aset_ne _ _ _ _ h

theorem formFsInfer_preserve (t : String) (m : AttrMap) (key v : String)
    (h : aget m key = some v) : aget (formFsInfer t m) key = some v := by
  by_cases hk : key = "fsFormField"
  · subst hk
    unfold formFsInfer
    rw [if_neg (by simp [acontains, h])]
    exact h
  · rw [formFsInfer_frame t m key hk]
    exact h

theorem formType_frame (t : String) (m : AttrMap) (key : String)
    (h : key ≠ "type") : aget (formType t m) key = aget m key := by
  simp only [formType]
  repeat' split
  all_goals first
    | rfl
    | exact aget_aset_ne _ _ _ _ h

theorem formType_preserve (t : String) (m : AttrMap) (key v : String)
    (h : aget m key = some v) : aget (formType t m) key = some v := by
  by_cases hk : key = "type"
  · subst hk
    unfold formType
    rw [if_neg (by simp [acontains, h])]
    exact h
  · rw [formType_frame t m key hk]
    exact h

theorem formName_frame (t : String) (m : AttrMap) (key : String)
    (h : key ≠ "name") : aget (formName t m) key = aget m key := by
  simp only [formName]
  repeat' split
  all_goals first
    | rfl
    | exact aget_aset_ne _ _ _ _ h

theorem formName_preserve (t : String) (m : AttrMap) (key v : String)
    (h : aget m key = some v) : aget (formName t m) key = some v := by
  by_cases hk : key = "name"
  · subst hk
    unfold formName
    rw [if_neg (by simp [acontains, h])]
    exact h
  · rw [formName_frame t m key hk]
    exact h

theorem formMultiline_frame (t : String) (m : AttrMap) (key : String)
    (h : key ≠ "multiline") : aget (formMultiline t m) key = aget m key := by
  simp only [formMultiline]
  repeat' split
  all_goals first
    | rfl
    | exact aget_aset_ne _ _ _ _ h

theorem formMultiline_preserve (t : String) (m : AttrMap) (key v : String)
    (h : aget m key = some v) : aget (formMultiline t m) key = some v := by
  by_cases hk : key = "multiline"
  · subst hk
    unfold formMultiline
    rw [if_neg (by simp [acontains, h])]
    exact h
  · rw [formMultiline_frame t m key hk]
    exact h

theorem formRequired_frame (n : Node) (m : AttrMap) (key : String)
    (h : key ≠ "required") : aget (formRequired n m) key = aget m key := by
  simp only [formRequired]
  repeat' split
  all_goals first
    | rfl
    | exact aget_aset_ne _ _ _ _ h

theorem formRequired_preserve (n : Node) (m : AttrMap) (key v : String)
    (h : aget m key = some v) : aget (formRequired n m) key = some v := by
  by_cases hk : key = "required"
  · subst hk
    unfold formRequired
    rw [if_neg (by simp [acontains, h])]
    exact h
  · rw [formRequired_frame n m key hk]
    exact h

theorem formLabel_frame (n : Node) (m : AttrMap) (key : String)
    (h1 : key ≠ "label") (h2 : key ≠ "description") (h3 : key ≠ "title") :
    aget (formLabel n m) key = aget m key := by
  simp only [formLabel]
  repeat' split
  all_goals first
    | rfl
    | exact aget_aset_ne _ _ _ _ h1
    | exact aget_aset_ne _ _ _ _ h2
    | exact aget_aset_ne _ _ _ _ h3

theorem formLabel_preserve (n : Node) (m : AttrMap) (key v : String)
    (h2 : key ≠ "description") (h3 : key ≠ "title")
    (h : aget m key = some v) : aget (formLabel n m) key = some v := by
  by_cases hk : key = "label"
  · subst hk
    unfold formLabel
    rw [if_neg (by simp [acontains, h])]
    exact h
  · rw [formLabel_frame n m key hk h2 h3]
    exact h

theorem inferExpandedForCombobox_frame (n : Node) (chain : List Node) (attrs : AttrMap)
    (key : String) (h : key ≠ "expanded") :
    aget (inferExpandedForCombobox n chain attrs) key = aget attrs key := by
  simp only [inferExpandedForCombobox]
  repeat' split
  all_goals first
    | rfl
    | exact aget_aset_ne _ _ _ _ h

theorem inferExpandedForCombobox_preserve (n : Node) (chain : List Node) (attrs : AttrMap)
    (key v : String) (h : aget attrs key = some v) :
    aget (inferExpandedForCombobox n chain attrs) key = some v := by
  by_cases hk : key = "expanded"
  · subst hk
    simp only [inferExpandedForCombobox]
    split
    · exact h
    · rw [if_pos (by simp [acontains, h])]
      exact h
  · rw [inferExpandedForCombobox_frame n chain attrs key hk]
    exact h

theorem stepMsaaStrip_frame (m : AttrMap) (key : String) (h : key ≠ "MSAA Role") :
    aget (stepMsaaStrip m) key = aget m key := by
  unfold stepMsaaStrip
  split
  · exact aget_aerase_ne _ _ _ h
  · rfl

theorem stepReadonlyStrip_frame (m : AttrMap) (key : String) (h : key ≠ "readonly") :
    aget (stepReadonlyStrip m) key = aget m key := by
  unfold stepReadonlyStrip
  split
  · exact aget_aerase_ne _ _ _ h
  · rfl

theorem stepDescText_frame (m : AttrMap) (key : String) (h : key ≠ "describedby-text") :
    aget (stepDescText m) key = aget m key := by
  simp only [stepDescText]
  repeat' split
  all_goals first
    | rfl
    | exact aget_aset_ne _ _ _ _ h

theorem stepDescText_preserve (m : AttrMap) (key v : String)
    (h : aget m key = some v) : aget (stepDescText m) key = some v := by
  by_cases hk : key = "describedby-text"
  · subst hk
    unfold stepDescText
    rw [if_neg]
    · exact h
    · intro hc
      exact hc.2.2 (by simp [acontains, h])
  · rw [stepDescText_frame m key hk]
    exact h

theorem inferFormAttrs_preserve (n : Node) (m : AttrMap) (key v : String)
    (hc : key ≠ "checked") (hl : key ≠ "label") (hf : key ≠ "fsFormField")
    (hd : key ≠ "description") (ht : key ≠ "title")
    (h : aget m key = some v) : aget (inferFormAttrs n m) key = some v := by
  unfold inferFormAttrs
  apply formLabel_preserve _ _ _ _ hd ht
  apply formRequired_preserve
  apply formMultiline_preserve
  apply formName_preserve
  apply formType_preserve
  apply formFsInfer_preserve
  rw [formFsStrip_frame _ _ _ hf]
  apply formTooltip_preserve _ _ _ hl
  rw [formChecked_frame _ _ hc]
  exact h

/-- C5 counterexample: a node with the `COLLAPSED` state and an
explicitly present, non-empty `expanded="true"` attribute comes out of
the inference engine with `expanded="false"` — the state-driven
expanded rewrite overwrites an explicit non-empty value, which the
claim's exception list does not cover. -/
theorem C5_counterexample :
    aget [("tag", "div"), ("expanded", "true")] "expanded" = some "true" ∧
    pyStrip "true" ≠ "" ∧
    aget (augment cC5node [] [("tag", "div"), ("expanded", "true")] cC5node) "expanded"
      = some "false" :=
  ⟨rfl, by decide, by decide⟩

theorem augment_preserve (n : Node) (chain : List Node) (attrs : AttrMap)
    (baseObj : Node) (key v : String)
    (hexc : key ∉ augmentExceptionKeys)
    (h : aget attrs key = some v) (hne : pyStrip v ≠ "") :
    aget (augment n chain attrs baseObj) key = some v := by
  have k01 : key ≠ "accessible-name-from" := fun hh => hexc (by rw [hh]; decide)
  have k02 : key ≠ "expanded" := fun hh => hexc (by rw [hh]; decide)
  have k03 : key ≠ "aria-pressed" := fun hh => hexc (by rw [hh]; decide)
  have k04 : key ≠ "pressed" := fun hh => hexc (by rw [hh]; decide)
  have k05 : key ≠ "checked" := fun hh => hexc (by rw [hh]; decide)
  have k06 : key ≠ "label" := fun hh => hexc (by rw [hh]; decide)
  have k07 : key ≠ "fsFormField" := fun hh => hexc (by rw [hh]; decide)
  have k08 : key ≠ "description" := fun hh => hexc (by rw [hh]; decide)
  have k09 : key ≠ "title" := fun hh => hexc (by rw [hh]; decide)
  have k10 : key ≠ "MSAA Role" := fun hh => hexc (by rw [hh]; decide)
  have k11 : key ≠ "readonly" := fun hh => hexc (by rw [hh]; decide)
  unfold augment
  apply stepDescText_preserve
  rw [stepReadonlyStrip_frame _ _ k11, stepMsaaStrip_frame _ _ k10]
  apply inferExpandedForCombobox_preserve
  apply inferFormAttrs_preserve _ _ _ _ k05 k06 k07 k08 k09
  apply stepTabindex_preserve
  apply stepLayout_preserve
  apply stepSpans_preserve
  rw [stepPressed_frame _ _ _ k04 k03]
  apply stepChecked_preserve
  apply stepSelected_preserve
  rw [stepExpanded_frame _ _ _ k02]
  apply stepExplicitName_preserve _ _ _ _ _ hne
  rw [stepNameFrom_frame _ _ _ k01]
  apply stepAccName_preserve
  apply stepTag_preserve
  exact h

/-- C5 (amended): every key whose value in the input mapping strips to
a non-empty string keeps exactly that value in the inference engine's
output, except for the documented rewrite keys
(`augmentExceptionKeys`): checked/pressed normalization, `aria-pressed`
removal, the tooltip label-to-title move, `fsFormField`/`readonly`/
`MSAA Role` stripping, the state-driven `expanded` rewrite, the
`accessible-name-from` refinement, and the `description`/`title`
description routing. -/
theorem C5_additive_frame (n : Node) (chain : List Node) (attrs : AttrMap)
    (baseObj : Node) (key v : String)
    (hexc : key ∉ augmentExceptionKeys)
    (h : aget attrs key = some v) (hne : pyStrip v ≠ "") :
    aget (augment n chain attrs baseObj) key = some v :=
  augment_preserve n chain attrs baseObj key v hexc h hne

/-- C5 witness: a concrete non-excepted key (`value`) survives the
whole inference pipeline unchanged. -/
theorem C5_additive_frame_witness :
    aget (augment (bareNode (IA2Source.dict [])) [] [("value", "7")]
      (bareNode (IA2Source.dict []))) "value" = some "7" :=
  C5_additive_frame (bareNode (IA2Source.dict [])) [] [("value", "7")]
    (bareNode (IA2Source.dict [])) "value" "7" (by decide) rfl (by decide)

theorem stepChecked_switch_on (n : Node) (m : AttrMap)
    (hckb : acontains m "checkable" = true) (hckd : acontains m "checked" = false)
    (hrole : pyLower (agetD m "role" "") = "switch")
    (hon : hasStateName n "on" = true) :
    aget (stepChecked n m) "checked" = some "true" := by
  simp only [stepChecked]
  rw [if_pos ⟨hckb, by simp [hckd]⟩, aget_aset]
  simp [hrole, hon]

theorem stepChecked_switch_off (n : Node) (m : AttrMap)
    (hckb : acontains m "checkable" = true) (hckd : acontains m "checked" = false)
    (hrole : pyLower (agetD m "role" "") = "switch")
    (hon : hasStateName n "on" = false)
    (hsON : stateIn n StateC.ON = false)
    (hsCH : stateIn n StateC.CHECKED = false)
    (hnCH : hasStateName n "checked" = false)
    (hsPR : stateIn n StateC.PRESSED = false)
    (hnPR : hasStateName n "pressed" = false) :
    aget (stepChecked n m) "checked" = some "false" := by
  simp only [stepChecked]
  rw [if_pos ⟨hckb, by simp [hckd]⟩, aget_aset]
  simp [hrole, hon, hsON, hsCH, hnCH, hsPR, hnPR]

theorem aget_aset_self_or (m : AttrMap) (key : String) (b : Bool) :
    aget (aset m key (if b then "true" else "false")) key = some "true" ∨
    aget (aset m key (if b then "true" else "false")) key = some "false" := by
  cases b
  · right
    rw [aget_aset]
    simp
  · left
    rw [aget_aset]
    simp

theorem stepChecked_sets (n : Node) (m : AttrMap)
    (hckb : acontains m "checkable" = true) (hckd : acontains m "checked" = false) :
    aget (stepChecked n m) "checked" = some "true" ∨
    aget (stepChecked n m) "checked" = some "false" := by
  simp only [stepChecked]
  rw [if_pos ⟨hckb, by simp [hckd]⟩]
  exact aget_aset_self_or m "checked" _

theorem formChecked_norm_fixed (m : AttrMap) (b : String)
    (hb : b = "true" ∨ b = "false") (h : aget m "checked" = some b) :
    aget (formChecked m) "checked" = some b := by
  rcases hb with hb | hb <;> subst hb
  · simp only [formChecked]
    rw [if_pos (by simp [acontains, h])]
    rw [show agetD m "checked" "" = "true" by simp [agetD, h]]
    rw [if_pos (by decide), aget_aset]
    simp
  · simp only [formChecked]
    rw [if_pos (by simp [acontains, h])]
    rw [show agetD m "checked" "" = "false" by simp [agetD, h]]
    rw [if_neg (by decide), if_pos (by decide), aget_aset]
    simp

theorem inferFormAttrs_checked_norm (n : Node) (m : AttrMap) (b : String)
    (hb : b = "true" ∨ b = "false") (h : aget m "checked" = some b) :
    aget (inferFormAttrs n m) "checked" = some b := by
  unfold inferFormAttrs
  apply formLabel_preserve _ _ _ _ (by decide) (by decide)
  apply formRequired_preserve
  apply formMultiline_preserve
  apply formName_preserve
  apply formType_preserve
  apply formFsInfer_preserve
  rw [formFsStrip_frame _ _ _ (by decide)]
  apply formTooltip_preserve _ _ _ (by decide)
  exact formChecked_norm_fixed m b hb h

/-- The suffix of the inference pipeline that runs after the checked
step, applied to a map whose `checked` is already a normalized boolean
literal: the value survives to the final output. -/
theorem pipelineAfterChecked_checked (n : Node) (chain : List Node) (t : String)
    (m : AttrMap) (b : String) (hb : b = "true" ∨ b = "false")
    (h : aget m "checked" = some b) :
    aget (stepDescText (stepReadonlyStrip (stepMsaaStrip (inferExpandedForCombobox n chain
      (inferFormAttrs n (stepTabindex n (stepLayout t (stepSpans n t
        (stepPressed n m))))))))) "checked" = some b := by
  apply stepDescText_preserve
  rw [stepReadonlyStrip_frame _ _ (by decide), stepMsaaStrip_frame _ _ (by decide)]
  apply inferExpandedForCombobox_preserve
  apply inferFormAttrs_checked_norm _ _ _ hb
  apply stepTabindex_preserve
  apply stepLayout_preserve
  apply stepSpans_preserve
  rw [stepPressed_frame _ _ _ (by decide) (by decide)]
  exact h

theorem preChecked_frames (n : Node) (t cf : String) (attrs : AttrMap) (key : String)
    (h1 : key ≠ "tag") (h2 : key ≠ "accessible-name") (h3 : key ≠ "accessible-name-from")
    (h4 : key ≠ "explicit-name-from") (h5 : key ≠ "expanded") (h6 : key ≠ "selected") :
    aget (stepSelected n (stepExpanded n (stepExplicitName cf (stepNameFrom cf
      (stepAccName n (stepTag t attrs)))))) key = aget attrs key := by
  rw [stepSelected_frame _ _ _ h6, stepExpanded_frame _ _ _ h5,
    stepExplicitName_frame _ _ _ h4, stepNameFrom_frame _ _ _ h3,
    stepAccName_frame _ _ _ h2, stepTag_frame _ _ _ h1]

/-- C6: for a node carrying a `checkable` marker but no `checked` key,
with mapped role `switch`: a state display-name containing "on" yields
`checked="true"`; a state display-name containing "off" (with no
on/checked/pressed signal by constant or name) yields
`checked="false"`; and in every checkable-without-checked case the
output `checked` is the literal `"true"` or `"false"`. -/
theorem C6_switch_checked (n : Node) (chain : List Node) (attrs : AttrMap)
    (baseObj : Node)
    (hckb : acontains attrs "checkable" = true)
    (hckd : aget attrs "checked" = Option.none) :
    ((pyLower (agetD attrs "role" "") = "switch" ∧ hasStateName n "on" = true) →
      aget (augment n chain attrs baseObj) "checked" = some "true") ∧
    ((pyLower (agetD attrs "role" "") = "switch" ∧ hasStateName n "off" = true ∧
        hasStateName n "on" = false ∧ stateIn n StateC.ON = false ∧
        stateIn n StateC.CHECKED = false ∧ hasStateName n "checked" = false ∧
        stateIn n StateC.PRESSED = false ∧ hasStateName n "pressed" = false) →
      aget (augment n chain attrs baseObj) "checked" = some "false") ∧
    (aget (augment n chain attrs baseObj) "checked" = some "true" ∨
      aget (augment n chain attrs baseObj) "checked" = some "false") := by
  have hckb6 : ∀ cf, acontains (stepSelected n (stepExpanded n (stepExplicitName cf
      (stepNameFrom cf (stepAccName n (stepTag (tagOf n) attrs)))))) "checkable" = true := by
    intro cf
    unfold acontains
    rw [preChecked_frames n (tagOf n) cf attrs "checkable"
      (by decide) (by decide) (by decide) (by decide) (by decide) (by decide)]
    exact hckb
  have hckd6 : ∀ cf, acontains (stepSelected n (stepExpanded n (stepExplicitName cf
      (stepNameFrom cf (stepAccName n (stepTag (tagOf n) attrs)))))) "checked" = false := by
    intro cf
    unfold acontains
    rw [preChecked_frames n (tagOf n) cf attrs "checked"
      (by decide) (by decide) (by decide) (by decide) (by decide) (by decide)]
    rw [hckd]
    rfl
  have hrole6 : ∀ cf, agetD (stepSelected n (stepExpanded n (stepExplicitName cf
      (stepNameFrom cf (stepAccName n (stepTag (tagOf n) attrs)))))) "role" ""
      = agetD attrs "role" "" := by
    intro cf
    unfold agetD
    rw [preChecked_frames n (tagOf n) cf attrs "role"
      (by decide) (by decide) (by decide) (by decide) (by decide) (by decide)]
  refine ⟨?_, ?_, ?_⟩
  · intro hc
    simp only [augment]
    apply pipelineAfterChecked_checked n chain (tagOf n) _ "true" (Or.inl rfl)
    apply stepChecked_switch_on n _ (hckb6 _) (hckd6 _) _ hc.2
    rw [hrole6]
    exact hc.1
  · intro hc
    simp only [augment]
    apply pipelineAfterChecked_checked n chain (tagOf n) _ "false" (Or.inr rfl)
    apply stepChecked_switch_off n _ (hckb6 _) (hckd6 _) _
      hc.2.2.1 hc.2.2.2.1 hc.2.2.2.2.1 hc.2.2.2.2.2.1 hc.2.2.2.2.2.2.1 hc.2.2.2.2.2.2.2
    rw [hrole6]
    exact hc.1
  · simp only [augment]
    rcases stepChecked_sets n _ (hckb6 _) (hckd6 _) with h | h
    · exact Or.inl (pipelineAfterChecked_checked n chain (tagOf n) _ "true" (Or.inl rfl) h)
    · exact Or.inr (pipelineAfterChecked_checked n chain (tagOf n) _ "false" (Or.inr rfl) h)

/-- C6 witness: the three conclusions at concrete switch nodes. -/
theorem C6_switch_checked_witness :
    aget (augment wC6on [] [("role", "switch"), ("checkable", "true")] wC6on) "checked"
      = some "true" ∧
    aget (augment wC6off [] [("role", "switch"), ("checkable", "true")] wC6off) "checked"
      = some "false" ∧
    (aget (augment wC6on [] [("role", "switch"), ("checkable", "true")] wC6on) "checked"
        = some "true" ∨
      aget (augment wC6on [] [("role", "switch"), ("checkable", "true")] wC6on) "checked"
        = some "false") :=
  ⟨(C6_switch_checked wC6on [] [("role", "switch"), ("checkable", "true")] wC6on
      (by decide) (by decide)).1 (by decide),
   (C6_switch_checked wC6off [] [("role", "switch"), ("checkable", "true")] wC6off
      (by decide) (by decide)).2.1 (by decide),
   (C6_switch_checked wC6on [] [("role", "switch"), ("checkable", "true")] wC6on
      (by decide) (by decide)).2.2⟩

theorem inferFormAttrs_frame (n : Node) (m : AttrMap) (key : String)
    (h1 : key ≠ "checked") (h2 : key ≠ "label") (h3 : key ≠ "title")
    (h4 : key ≠ "fsFormField") (h5 : key ≠ "type") (h6 : key ≠ "name")
    (h7 : key ≠ "multiline") (h8 : key ≠ "required") (h9 : key ≠ "description") :
    aget (inferFormAttrs n m) key = aget m key := by
  unfold inferFormAttrs
  rw [formLabel_frame _ _ _ h2 h9 h3, formRequired_frame _ _ _ h8,
    formMultiline_frame _ _ _ h7, formName_frame _ _ _ h6, formType_frame _ _ _ h5,
    formFsInfer_frame _ _ _ h4, formFsStrip_frame _ _ _ h4,
    formTooltip_frame _ _ h2 h3, formChecked_frame _ _ h1]

/-- The pipeline suffix after the pressed block leaves `pressed` and
`aria-pressed` (and any other key it does not touch) unchanged. -/
theorem pipelineAfterPressed_frame (n : Node) (chain : List Node) (t : String)
    (m : AttrMap) (key : String)
    (h1 : key ≠ "colspan") (h2 : key ≠ "rowspan") (h3 : key ≠ "layout-guess")
    (h4 : key ≠ "tabindex") (h5 : key ≠ "checked") (h6 : key ≠ "label")
    (h7 : key ≠ "title") (h8 : key ≠ "fsFormField") (h9 : key ≠ "type")
    (h10 : key ≠ "name") (h11 : key ≠ "multiline") (h12 : key ≠ "required")
    (h13 : key ≠ "description") (h14 : key ≠ "expanded") (h15 : key ≠ "MSAA Role")
    (h16 : key ≠ "readonly") (h17 : key ≠ "describedby-text") :
    aget (stepDescText (stepReadonlyStrip (stepMsaaStrip (inferExpandedForCombobox n chain
      (inferFormAttrs n (stepTabindex n (stepLayout t (stepSpans n t m)))))))) key
      = aget m key := by
  rw [stepDescText_frame _ _ h17, stepReadonlyStrip_frame _ _ h16,
    stepMsaaStrip_frame _ _ h15, inferExpandedForCombobox_frame _ _ _ _ h14,
    inferFormAttrs_frame _ _ _ h5 h6 h7 h8 h9 h10 h11 h12 h13,
    stepTabindex_frame _ _ _ h4, stepLayout_frame _ _ _ h3,
    stepSpans_frame _ _ _ _ h1 h2]

theorem stepPressed_hint_only (n : Node) (m : AttrMap)
    (hnp : acontains m "pressed" = false)
    (hap : pyLower (pyStrip (agetD m "aria-pressed" "")) ≠ "")
    (hr1 : pyLower (agetD m "role" "") ≠ "togglebutton")
    (hx1 : pyLower (agetD m "xml-roles" "") ≠ "togglebutton")
    (hrc : ¬ n.roleC = some RoleC.TOGGLEBUTTON)
    (hr2 : pyLower (agetD m "role" "") ≠ "tab")
    (hx2 : pyLower (agetD m "xml-roles" "") ≠ "tab") :
    aget (stepPressed n m) "aria-pressed" = Option.none ∧
    aget (stepPressed n m) "pressed"
      = (ariaPressedHint m).map (fun b => if b then "true" else "false") := by
  have hm1 : pressedHintErase m = aerase m "aria-pressed" := by
    unfold pressedHintErase
    rw [if_neg hap]
  have hroleE : agetD (aerase m "aria-pressed") "role" "" = agetD m "role" "" := by
    unfold agetD
    rw [aget_aerase_ne _ _ _ (by decide)]
  have hxmlE : agetD (aerase m "aria-pressed") "xml-roles" "" = agetD m "xml-roles" "" := by
    unfold agetD
    rw [aget_aerase_ne _ _ _ (by decide)]
  have hnpE : acontains (aerase m "aria-pressed") "pressed" = false := by
    unfold acontains
    rw [aget_aerase_ne _ _ _ (by decide)]
    exact hnp
  have hm2 : pressedToggle n (ariaPressedHint m) (aerase m "aria-pressed")
      = aerase m "aria-pressed" := by
    simp only [pressedToggle]
    rw [if_neg (by simp [hnpE])]
    rw [if_neg ?_]
    intro hc
    rcases hc.1 with h | h | h
    · rw [hroleE] at h
      exact hr1 h
    · rw [hxmlE] at h
      exact hx1 h
    · exact hrc h
  have hm3 : pressedTab (aerase m "aria-pressed") = aerase m "aria-pressed" := by
    simp only [pressedTab]
    rw [if_neg (by simp [hnpE])]
    rw [if_neg ?_]
    intro hc
    rcases hc.1 with h | h
    · rw [hroleE] at h
      exact hr2 h
    · rw [hxmlE] at h
      exact hx2 h
  simp only [stepPressed]
  rw [hm1, hm2, hm3]
  cases hpfa : ariaPressedHint m with
  | none =>
    have hm4 : pressedFallback (ariaPressedHint m) (aerase m "aria-pressed")
        = aerase m "aria-pressed" := by
      unfold pressedFallback
      rw [if_neg (by simp [hnpE]), hpfa]
    rw [hpfa] at hm4
    rw [hm4]
    have hm5 : pressedNorm (aerase m "aria-pressed") = aerase m "aria-pressed" := by
      unfold pressedNorm
      rw [if_neg (by simp [hnpE])]
    rw [hm5]
    refine ⟨by rw [aget_aerase]; simp, ?_⟩
    rw [aget_aerase_ne _ _ _ (by decide)]
    simp only [Option.map_none']
    have := hnp
    unfold acontains at this
    cases hg : aget m "pressed" with
    | none => rfl
    | some v =>
      rw [hg] at this
      simp at this
  | some b =>
    have hm4 : pressedFallback (some b) (aerase m "aria-pressed")
        = aset (aerase m "aria-pressed") "pressed" (if b then "true" else "false") := by
      unfold pressedFallback
      rw [if_neg (by simp [hnpE])]
    rw [hm4]
    cases b with
    | false =>
      rw [show (if (false : Bool) = true then "true" else "false") = "false" from rfl]
      have hm5 : pressedNorm (aset (aerase m "aria-pressed") "pressed" "false")
          = aset (aset (aerase m "aria-pressed") "pressed" "false") "pressed" "false" := by
        unfold pressedNorm
        rw [if_pos (by rw [acontains_aset]; simp)]
        rw [show agetD (aset (aerase m "aria-pressed") "pressed" "false") "pressed" "" = "false" by
          unfold agetD
          rw [aget_aset]
          simp]
        rw [if_pos (by decide)]
      rw [hm5]
      constructor
      · rw [aget_aset_ne _ _ _ _ (by decide), aget_aset_ne _ _ _ _ (by decide), aget_aerase]
        simp
      · rw [aget_aset]
        simp
    | true =>
      rw [show (if (true : Bool) = true then "true" else "false") = "true" from rfl]
      have hm5 : pressedNorm (aset (aerase m "aria-pressed") "pressed" "true")
          = aset (aset (aerase m "aria-pressed") "pressed" "true") "pressed" "true" := by
        unfold pressedNorm
        rw [if_pos (by rw [acontains_aset]; simp)]
        rw [show agetD (aset (aerase m "aria-pressed") "pressed" "true") "pressed" "" = "true" by
          unfold agetD
          rw [aget_aset]
          simp]
        rw [if_neg (by decide), if_pos (by decide)]
      rw [hm5]
      constructor
      · rw [aget_aset_ne _ _ _ _ (by decide), aget_aset_ne _ _ _ _ (by decide), aget_aerase]
        simp
      · rw [aget_aset]
        simp

theorem prePressed_frames (n : Node) (t cf : String) (attrs : AttrMap) (key : String)
    (h1 : key ≠ "tag") (h2 : key ≠ "accessible-name") (h3 : key ≠ "accessible-name-from")
    (h4 : key ≠ "explicit-name-from") (h5 : key ≠ "expanded") (h6 : key ≠ "selected")
    (h7 : key ≠ "checked") :
    aget (stepChecked n (stepSelected n (stepExpanded n (stepExplicitName cf
      (stepNameFrom cf (stepAccName n (stepTag t attrs))))))) key = aget attrs key := by
  rw [stepChecked_frame _ _ _ h7]
  exact preChecked_frames n t cf attrs key h1 h2 h3 h4 h5 h6

theorem ariaPressedHint_congr (m1 m2 : AttrMap)
    (h : aget m1 "aria-pressed" = aget m2 "aria-pressed") :
    ariaPressedHint m1 = ariaPressedHint m2 := by
  unfold ariaPressedHint agetD
  rw [h]

/-- C1 (amended): for a node whose mapping exposes a non-empty
`aria-pressed` value but whose role is not recognized as a toggle (and
not `tab`), with tag `span`, the augmented mapping contains no
`aria-pressed` key, but it DOES contain a `pressed` key exactly when
the trimmed, lowercased hint is one of the recognized boolean
spellings, with the normalized `"true"`/`"false"` value (the final
"keep the aria value" fallback of the pressed block). -/
theorem C1_pressed_hint_passthrough (n : Node) (chain : List Node) (attrs : AttrMap)
    (baseObj : Node)
    (htag : pyLower (agetD attrs "tag" "") = "span")
    (hnp : aget attrs "pressed" = Option.none)
    (hap : pyLower (pyStrip (agetD attrs "aria-pressed" "")) ≠ "")
    (hr1 : pyLower (agetD attrs "role" "") ≠ "togglebutton")
    (hx1 : pyLower (agetD attrs "xml-roles" "") ≠ "togglebutton")
    (hrc : ¬ n.roleC = some RoleC.TOGGLEBUTTON)
    (hr2 : pyLower (agetD attrs "role" "") ≠ "tab")
    (hx2 : pyLower (agetD attrs "xml-roles" "") ≠ "tab") :
    aget (augment n chain attrs baseObj) "aria-pressed" = Option.none ∧
    aget (augment n chain attrs baseObj) "pressed"
      = (ariaPressedHint attrs).map (fun b => if b then "true" else "false") := by
  simp only [augment]
  set M2 := stepAccName n (stepTag (tagOf n) attrs) with hM2
  set CF := computedFromOf n M2 with hCF
  set M7 := stepChecked n (stepSelected n (stepExpanded n (stepExplicitName CF
    (stepNameFrom CF M2)))) with hM7
  have hframe : ∀ key, key ≠ "tag" → key ≠ "accessible-name" →
      key ≠ "accessible-name-from" → key ≠ "explicit-name-from" → key ≠ "expanded" →
      key ≠ "selected" → key ≠ "checked" → aget M7 key = aget attrs key := by
    intro key k1 k2 k3 k4 k5 k6 k7
    rw [hM7, hM2]
    exact prePressed_frames n (tagOf n) CF attrs key k1 k2 k3 k4 k5 k6 k7
  have hhint : ariaPressedHint M7 = ariaPressedHint attrs :=
    ariaPressedHint_congr M7 attrs (hframe "aria-pressed" (by decide) (by decide)
      (by decide) (by decide) (by decide) (by decide) (by decide))
  have hso := stepPressed_hint_only n M7
    (by
      unfold acontains
      rw [hframe "pressed" (by decide) (by decide) (by decide) (by decide) (by decide)
        (by decide) (by decide), hnp]
      rfl)
    (by
      unfold agetD
      rw [hframe "aria-pressed" (by decide) (by decide) (by decide) (by decide) (by decide)
        (by decide) (by decide)]
      exact hap)
    (by
      unfold agetD
      rw [hframe "role" (by decide) (by decide) (by decide) (by decide) (by decide)
        (by decide) (by decide)]
      exact hr1)
    (by
      unfold agetD
      rw [hframe "xml-roles" (by decide) (by decide) (by decide) (by decide) (by decide)
        (by decide) (by decide)]
      exact hx1)
    hrc
    (by
      unfold agetD
      rw [hframe "role" (by decide) (by decide) (by decide) (by decide) (by decide)
        (by decide) (by decide)]
      exact hr2)
    (by
      unfold agetD
      rw [hframe "xml-roles" (by decide) (by decide) (by decide) (by decide) (by decide)
        (by decide) (by decide)]
      exact hx2)
  constructor
  · rw [pipelineAfterPressed_frame n chain (tagOf n) _ "aria-pressed" (by decide) (by decide)
      (by decide) (by decide) (by decide) (by decide) (by decide) (by decide) (by decide)
      (by decide) (by decide) (by decide) (by decide) (by decide) (by decide) (by decide)
      (by decide)]
    exact hso.1
  · rw [pipelineAfterPressed_frame n chain (tagOf n) _ "pressed" (by decide) (by decide)
      (by decide) (by decide) (by decide) (by decide) (by decide) (by decide) (by decide)
      (by decide) (by decide) (by decide) (by decide) (by decide) (by decide) (by decide)
      (by decide)]
    rw [hso.2, hhint]

/-- C1 counterexample: a `span` with role `link` (not a toggle) and
`aria-pressed="true"` produces `pressed="true"` in the augmented
mapping, contradicting the claim that no `pressed` key is emitted. -/
theorem C1_counterexample :
    aget cC1attrs "aria-pressed" = some "true" ∧
    aget (augment cC1node [] cC1attrs cC1node) "pressed" = some "true" ∧
    aget (augment cC1node [] cC1attrs cC1node) "aria-pressed" = Option.none :=
  ⟨rfl, by decide, by decide⟩

/-- C1 witness: the amended statement applied at the counterexample's
inputs (and at a non-boolean hint, where no `pressed` key appears). -/
theorem C1_pressed_hint_passthrough_witness :
    (aget (augment cC1node [] cC1attrs cC1node) "aria-pressed" = Option.none ∧
      aget (augment cC1node [] cC1attrs cC1node) "pressed"
        = (ariaPressedHint cC1attrs).map (fun b => if b then "true" else "false")) ∧
    (aget (augment cC1node [] [("tag", "span"), ("role", "link"), ("aria-pressed", "mixed")]
        cC1node) "pressed"
      = (ariaPressedHint [("tag", "span"), ("role", "link"), ("aria-pressed", "mixed")]).map
          (fun b => if b then "true" else "false")) :=
  ⟨C1_pressed_hint_passthrough cC1node [] cC1attrs cC1node (by decide) (by decide)
      (by decide) (by decide) (by decide) (by decide) (by decide) (by decide),
   (C1_pressed_hint_passthrough cC1node []
      [("tag", "span"), ("role", "link"), ("aria-pressed", "mixed")] cC1node (by decide)
      (by decide) (by decide) (by decide) (by decide) (by decide) (by decide) (by decide)).2⟩

theorem nodeBeq_mk (i1 : IA2Source) (n1 d1 v1 a1 : Option String) (s1 : List StateV)
    (r1 : Option RoleC) (t1 : Option TI) (m1 : Option AM) (c1 w1 : Option String)
    (p1 f1 x1 : Option Node)
    (i2 : IA2Source) (n2 d2 v2 a2 : Option String) (s2 : List StateV)
    (r2 : Option RoleC) (t2 : Option TI) (m2 : Option AM) (c2 w2 : Option String)
    (p2 f2 x2 : Option Node) :
    nodeBeq (Node.mk i1 n1 d1 v1 a1 s1 r1 t1 m1 c1 w1 p1 f1 x1)
      (Node.mk i2 n2 d2 v2 a2 s2 r2 t2 m2 c2 w2 p2 f2 x2)
    = (i1 == i2 && n1 == n2 && d1 == d2 && v1 == v2 && a1 == a2 && s1 == s2 &&
       r1 == r2 && t1 == t2 && m1 == m2 && c1 == c2 && w1 == w2 &&
       onodeBeq p1 p2 && onodeBeq f1 f2 && onodeBeq x1 x2) := by
  unfold nodeBeq
  rfl

theorem nodeBeq_fields (a b : Node) (h : nodeBeq a b = true) :
    a.ia2 = b.ia2 ∧ a.val = b.val := by
  cases a with
  | mk i1 n1 d1 v1 a1 s1 r1 t1 m1 c1 w1 p1 f1 x1 =>
    cases b with
    | mk i2 n2 d2 v2 a2 s2 r2 t2 m2 c2 w2 p2 f2 x2 =>
      rw [nodeBeq_mk] at h
      simp only [Bool.and_eq_true] at h
      exact ⟨eq_of_beq h.1.1.1.1.1.1.1.1.1.1.1.1.1,
        eq_of_beq h.1.1.1.1.1.1.1.1.1.1.2⟩

theorem ia2attrs_congr (a b : Node) (h1 : a.ia2 = b.ia2) (h2 : a.val = b.val) :
    ia2attrs a = ia2attrs b := by
  unfold ia2attrs
  rw [h1, h2]

theorem tagOf_congr (a b : Node) (h1 : a.ia2 = b.ia2) (h2 : a.val = b.val) :
    tagOf a = tagOf b := by
  unfold tagOf
  rw [ia2attrs_congr a b h1 h2]

theorem nodeBeq_false_of_tagOf_ne (a b : Node) (h : tagOf a ≠ tagOf b) :
    nodeBeq a b = false := by
  cases hb : nodeBeq a b
  · rfl
  · exfalso
    obtain ⟨h1, h2⟩ := nodeBeq_fields a b hb
    exact h (tagOf_congr a b h1 h2)

theorem isWebContext_false_of (e : Env) (base : Node)
    (hb : isBrowseModeObj base = false)
    (hbf : ∀ f, e.focus = some f → isBrowseModeObj f = false)
    (hdoc : ∀ o ∈ domChain (some base) 40, tagOf o ≠ "#document")
    (hurl : documentUrl e base (domChain (some base) 40) = "")
    (hdocf : ∀ f, e.focus = some f → ∀ o ∈ domChain (some f) 40, tagOf o ≠ "#document")
    (hurlf : ∀ f, e.focus = some f → documentUrl e f (domChain (some f) 40) = "") :
    isWebContext e base = false := by
  unfold isWebContext
  have hany : (domChain (some base) 40).any (fun o => decide (tagOf o = "#document"))
      = false := by
    rw [List.any_eq_false]
    intro o ho
    simpa using hdoc o ho
  cases hf : e.focus with
  | none =>
    simp [hb, hany, hurl]
  | some f =>
    by_cases hfb : nodeBeq f base = true
    · simp [hb, hfb, hany, hurl]
    · have hfany : (domChain (some f) 40).any (fun o => decide (tagOf o = "#document"))
          = false := by
        rw [List.any_eq_false]
        intro o ho
        simpa using hdocf f hf o ho
      simp [hb, hfb, hany, hurl, hbf f hf, hfany, hurlf f hf]

/-- C7: when a candidate object is found but the web-context check has
nothing to go on — no browse-mode interceptor on candidate or focus, no
`#document`-tagged node in either ancestry chain, and no retrievable
document URL for either object — the plain report builder returns the
fixed not-applicable message with a failure flag and builds no report
content. -/
theorem C7_gate_message (e : Env) (base : Node)
    (hc : candidateObject e = some base)
    (hb : isBrowseModeObj base = false)
    (hbf : ∀ f, e.focus = some f → isBrowseModeObj f = false)
    (hdoc : ∀ o ∈ domChain (some base) 40, tagOf o ≠ "#document")
    (hurl : documentUrl e base (domChain (some base) 40) = "")
    (hdocf : ∀ f, e.focus = some f → ∀ o ∈ domChain (some f) 40, tagOf o ≠ "#document")
    (hurlf : ∀ f, e.focus = some f → documentUrl e f (domChain (some f) 40) = "") :
    buildReportPlain e = (browseModeOnlyMsg, false) := by
  unfold buildReportPlain
  rw [hc]
  show (if isWebContext e base = false then (browseModeOnlyMsg, false)
    else (pyStrip (pyJoin "\n" (reportLinesFor e base)) ++ "\n", true)) = _
  rw [isWebContext_false_of e base hb hbf hdoc hurl hdocf hurlf]
  rfl

/-- C7 witness: a navigator-only environment with no browse mode, no
document ancestor and no URL source yields the fixed message. -/
theorem C7_gate_message_witness :
    buildReportPlain wC7env = (browseModeOnlyMsg, false) :=
  C7_gate_message wC7env wC7node rfl (by decide)
    (fun f hf => Option.noConfusion hf)
    (by
      intro o ho
      rw [show domChain (some wC7node) 40 = [wC7node] from rfl] at ho
      simp at ho
      subst ho
      decide)
    (by decide)
    (fun f hf => Option.noConfusion hf)
    (fun f hf => Option.noConfusion hf)

/-! ## C2: image-inside-link promotion and the rendered report -/

theorem domChain_succ_of_tag (n : Node) (fuel : Nat)
    (h1 : agetD (ia2attrs n) "tag" "" ≠ "")
    (h2 : tagOf n ≠ "#document") :
    domChain (some n) (fuel + 1) = n :: domChain n.parent fuel := by
  show (if agetD (ia2attrs n) "tag" "" ≠ "" then
      if pyLower (pyStrip (agetD (ia2attrs n) "tag" "")) = "#document" then [n]
      else n :: domChain n.parent fuel
    else domChain n.parent fuel) = n :: domChain n.parent fuel
  rw [if_pos h1]
  exact if_neg h2

theorem tagOf_eq_of_nodeBeq (a b : Node) (h : nodeBeq a b = true) :
    tagOf a = tagOf b := by
  obtain ⟨h1, h2⟩ := nodeBeq_fields a b h
  unfold tagOf agetD ia2attrs
  rw [h1, h2]

theorem adjustCandidate_not_stuck (e : Env) (base : Node) (chain : List Node)
    (h : stuckAtDocument (base, chain) = false) :
    adjustCandidate e base chain = (base, chain) := by
  simp [adjustCandidate, h]

theorem mem_orderedParams_pref (attrs : AttrMap) (k : String)
    (hp : k ∈ preferredKeys) (hk : acontains attrs k = true) :
    k ∈ orderedParams attrs := by
  simp only [orderedParams]
  exact List.mem_append_left _ (List.mem_filter.mpr ⟨hp, hk⟩)

theorem mem_formatTagBlockLines (t : String) (attrs : AttrMap) (k v : String)
    (hk : k ∈ orderedParams attrs) (hv : aget attrs k = some v)
    (hs : pyStrip v = v) (hne : v ≠ "") :
    (k ++ "=" ++ v) ∈ formatTagBlockLines t attrs := by
  simp only [formatTagBlockLines]
  refine List.mem_cons_of_mem _ (List.mem_cons_of_mem _ (List.mem_append_left _ ?_))
  refine List.mem_map.mpr ⟨(k, v), ?_, rfl⟩
  simp only [formatPairs]
  refine List.mem_filterMap.mpr ⟨k, hk, ?_⟩
  simp only [agetD, hv, Option.getD_some, hs]
  rw [if_neg hne]

/-- C2: for a candidate node whose raw attributes carry `tag="img"`, with
a nearest `a`-tagged node in its ancestry chain holding
`href="https://example.com/"`, the canonicalizer promotes the link and
keeps the image as the nested original; the plain report renders the
promoted link's `Tag A` block first, then `Nested element:` with the
image's `Tag IMG` block, then the link's remaining ancestors, and the
`Tag A` block contains the line `href=https://example.com/`. -/
theorem C2_img_link_report (e : Env) (n link : Node)
    (hc : candidateObject e = some n)
    (hweb : isWebContext e n = true)
    (hntag : aget (ia2attrs n) "tag" = some "img")
    (hfind : findNearestTag (domChain (some n) 40) "a" = some link)
    (hltag : aget (ia2attrs link) "tag" = some "a")
    (hhref : aget (ia2attrs link) "href" = some "https://example.com/") :
    promoteCanonical n (domChain (some n) 40) = (link, some n) ∧
    buildReportPlain e = (pyStrip (pyJoin "\n" (reportLinesFor e n)) ++ "\n", true) ∧
    reportLinesFor e n =
      "Element Information:"
        :: pyRstrip (formatTagBlock "a"
            (augment link (domChain (some link) 40) (ia2attrs link) n))
        :: "Nested element:"
        :: pyRstrip (formatTagBlock "img"
            (augment n (domChain (some n) 40) (ia2attrs n) n))
        :: ((domChain (some link) 40).drop 1).map (fun anc => renderNode e n anc) ∧
    "href=https://example.com/" ∈ formatTagBlockLines "a"
      (augment link (domChain (some link) 40) (ia2attrs link) n) := by
  have htag : tagOf n = "img" := by
    unfold tagOf agetD
    rw [hntag]
    decide
  have htagl : tagOf link = "a" := by
    unfold tagOf agetD
    rw [hltag]
    decide
  have h1 : agetD (ia2attrs n) "tag" "" ≠ "" := by
    unfold agetD
    rw [hntag]
    decide
  have h2 : tagOf n ≠ "#document" := by
    rw [htag]
    decide
  have hchain : domChain (some n) 40 = n :: domChain n.parent 39 :=
    domChain_succ_of_tag n 39 h1 h2
  have hpc : promoteCanonical n (domChain (some n) 40) = (link, some n) := by
    have hie : (domChain (some n) 40).isEmpty = false := by
      rw [hchain]
      rfl
    simp only [promoteCanonical]
    rw [hie]
    rw [if_neg (by decide : ¬ ((false : Bool) = true))]
    have hcond : (tagOf n = "img" ∨ tagOf n = "svg") ∧
        ((findNearestTag (domChain (some n) 40) "a").isSome = true) :=
      ⟨Or.inl htag, by rw [hfind]; rfl⟩
    rw [if_pos hcond]
    rw [hfind]
    rfl
  have hstuck : stuckAtDocument (n, domChain (some n) 40) = false := by
    unfold stuckAtDocument
    rw [hchain]
    show (decide ((n :: domChain n.parent 39).length = 1) &&
      decide (tagOf n = "#document")) = false
    rw [htag, show decide (("img" : String) = "#document") = false from by decide,
      Bool.and_false]
  have hadj : adjustCandidate e n (domChain (some n) 40) = (n, domChain (some n) 40) :=
    adjustCandidate_not_stuck e n _ hstuck
  have hnb : nodeBeq n link = false := by
    cases hb : nodeBeq n link with
    | false => rfl
    | true =>
      exfalso
      have hteq := tagOf_eq_of_nodeBeq n link hb
      rw [htag, htagl] at hteq
      exact absurd hteq (by decide)
  have hrlA : renderNode e n link =
      pyRstrip (formatTagBlock "a"
        (augment link (domChain (some link) 40) (ia2attrs link) n)) := by
    have ha := augment_preserve link (domChain (some link) 40) (ia2attrs link) n
      "tag" "a" (by decide) hltag (by decide)
    have htb : tagForBlock link
        (augment link (domChain (some link) 40) (ia2attrs link) n) = "a" := by
      simp only [tagForBlock, ha, Option.getD_some]
      rw [if_pos (by decide : ("a" : String) ≠ "")]
    simp only [renderNode, htb]
  have hrlI : renderNode e n n =
      pyRstrip (formatTagBlock "img"
        (augment n (domChain (some n) 40) (ia2attrs n) n)) := by
    have ha := augment_preserve n (domChain (some n) 40) (ia2attrs n) n
      "tag" "img" (by decide) hntag (by decide)
    have htb : tagForBlock n
        (augment n (domChain (some n) 40) (ia2attrs n) n) = "img" := by
      simp only [tagForBlock, ha, Option.getD_some]
      rw [if_pos (by decide : ("img" : String) ≠ "")]
    simp only [renderNode, htb]
  have hrl : reportLinesFor e n =
      "Element Information:"
        :: pyRstrip (formatTagBlock "a"
            (augment link (domChain (some link) 40) (ia2attrs link) n))
        :: "Nested element:"
        :: pyRstrip (formatTagBlock "img"
            (augment n (domChain (some n) 40) (ia2attrs n) n))
        :: ((domChain (some link) 40).drop 1).map (fun anc => renderNode e n anc) := by
    simp only [reportLinesFor, hadj, hpc, hnb]
    simp [hrlA, hrlI]
  have hbr : buildReportPlain e =
      (pyStrip (pyJoin "\n" (reportLinesFor e n)) ++ "\n", true) := by
    unfold buildReportPlain
    rw [hc]
    show (if isWebContext e n = false then (browseModeOnlyMsg, false)
      else (pyStrip (pyJoin "\n" (reportLinesFor e n)) ++ "\n", true)) = _
    rw [hweb]
    rw [if_neg (by decide : ¬ ((true : Bool) = false))]
  have haughref := augment_preserve link (domChain (some link) 40) (ia2attrs link) n
    "href" "https://example.com/" (by decide) hhref (by decide)
  have hmem : "href" ∈ orderedParams
      (augment link (domChain (some link) 40) (ia2attrs link) n) :=
    mem_orderedParams_pref _ "href" (by decide)
      (by unfold acontains; rw [haughref]; rfl)
  have hline := mem_formatTagBlockLines "a"
    (augment link (domChain (some link) 40) (ia2attrs link) n)
    "href" "https://example.com/" hmem haughref (by decide) (by decide)
  refine ⟨hpc, hbr, hrl, ?_⟩
  have heq : "href" ++ "=" ++ "https://example.com/" = "href=https://example.com/" := by
    decide
  rw [heq] at hline
  exact hline

/-- C2 witness: a navigator environment on a concrete `img` node nested
under an `a href="https://example.com/"` link below a `#document`
root. -/
theorem C2_img_link_report_witness :
    promoteCanonical wC2img (domChain (some wC2img) 40) = (wC2link, some wC2img) ∧
    buildReportPlain wC2env =
      (pyStrip (pyJoin "\n" (reportLinesFor wC2env wC2img)) ++ "\n", true) ∧
    reportLinesFor wC2env wC2img =
      "Element Information:"
        :: pyRstrip (formatTagBlock "a"
            (augment wC2link (domChain (some wC2link) 40) (ia2attrs wC2link) wC2img))
        :: "Nested element:"
        :: pyRstrip (formatTagBlock "img"
            (augment wC2img (domChain (some wC2img) 40) (ia2attrs wC2img) wC2img))
        :: ((domChain (some wC2link) 40).drop 1).map
            (fun anc => renderNode wC2env wC2img anc) ∧
    "href=https://example.com/" ∈ formatTagBlockLines "a"
      (augment wC2link (domChain (some wC2link) 40) (ia2attrs wC2link) wC2img) :=
  C2_img_link_report wC2env wC2img wC2link rfl (by decide) rfl rfl rfl rfl
